import Mathlib

/-!
Verification development for the QISKIT simulator `VectorEngine`
(`src/qiskit-simulator/src/engines/vector_engine.hpp`).

The engine accumulates per-label snapshot statistics across shots
(ket snapshots, density sums, probability sums, probability-ket sums,
inner-product lists and overlap sums), merges partial accumulators
produced by independent workers (`VectorEngine::add`), and renders the
final accumulator to an output document (`to_json`).

Machine doubles are idealized as rationals, `complex_t` as a pair of
rationals, and the `std::map` containers as association lists keyed by
the snapshot label.  Helpers that live in headers not present in the
source tree (`misc.hpp`, `qubit_vector.hpp`, `base_engine.hpp`) are
modelled from the specification and marked as such.
-/

/-- `complex_t`: a complex number with rational components. -/
structure Cx where
  re : ℚ
  im : ℚ
deriving DecidableEq, Repr

/-- Complex addition. -/
def cadd (a b : Cx) : Cx := ⟨a.re + b.re, a.im + b.im⟩

/-- Complex multiplication. -/
def cmul (a b : Cx) : Cx := ⟨a.re * b.re - a.im * b.im, a.re * b.im + a.im * b.re⟩

/-- Complex conjugate. -/
def cconj (a : Cx) : Cx := ⟨a.re, -a.im⟩

/-- Complex zero. -/
def czero : Cx := ⟨0, 0⟩

/-- Scaling a complex number by a real factor. -/
def cscale (r : ℚ) (a : Cx) : Cx := ⟨r * a.re, r * a.im⟩

/-- Modelled from the spec: `chop` on a real component (`misc.hpp` is not in
src).  Spec §3: any real/imaginary component whose absolute value is smaller
than the threshold is forced to exactly zero. -/
def chopR (eps x : ℚ) : ℚ := if |x| < eps then 0 else x

/-- Modelled from the spec: `chop` on a `complex_t`, componentwise. -/
def chopC (eps : ℚ) (a : Cx) : Cx := ⟨chopR eps a.re, chopR eps a.im⟩

/-- Modelled from the spec: elementwise `chop` of a real vector. -/
def chopRV (eps : ℚ) (v : List ℚ) : List ℚ := v.map (chopR eps)

/-- Modelled from the spec: elementwise `chop` of a complex matrix. -/
def chopMat (eps : ℚ) (m : List (List Cx)) : List (List Cx) :=
  m.map (fun row => row.map (chopC eps))

/-- Scaling a real vector elementwise (`rvector_t * double`). -/
def rvscale (r : ℚ) (v : List ℚ) : List ℚ := v.map (fun x => x * r)

/-- Scaling a complex matrix elementwise (`cmatrix_t * double`). -/
def matScale (r : ℚ) (m : List (List Cx)) : List (List Cx) :=
  m.map (fun row => row.map (fun a => cscale r a))

/-- `VectorEngine::get_probs(const complex_t&)`: `std::real(conj(val) * val)`. -/
def get_probs_c (val : Cx) : ℚ := (cmul (cconj val) val).re

/-- `VectorEngine::get_probs` on a vector: elementwise squared modulus. -/
def get_probs_v (vec : List Cx) : List ℚ := vec.map get_probs_c

/-- Modelled from the spec: `QubitVector::inner_product` (`qubit_vector.hpp`
is not in src).  Spec §3: inner products are `snapshot · target*`. -/
def inner_product (psi phi : List Cx) : Cx :=
  (List.zipWith (fun a b => cmul a (cconj b)) psi phi).foldl cadd czero

/-- Modelled from the spec: `outer_product` (`misc.hpp` is not in src).
Spec §3: the density contribution is `amplitude ⊗ amplitude*`, i.e. the
matrix with entry `(i, j)` equal to `v i * conj (w j)`. -/
def outer_product (v w : List Cx) : List (List Cx) :=
  v.map (fun a => w.map (fun b => cmul a (cconj b)))

/-- Modelled from the spec: the misc-header `operator+=` on `rvector_t`.
Spec §4.3: summed quantities are added elementwise, with entries created on
first encounter (an empty left operand is simply replaced by the right one,
which is the behaviour a default-constructed `std::map` entry relies on). -/
def rvadd (a b : List ℚ) : List ℚ :=
  if a.isEmpty then b else List.zipWith (· + ·) a b

/-- Elementwise addition of complex matrices (`cmatrix_t::operator+`). -/
def matAdd (a b : List (List Cx)) : List (List Cx) :=
  List.zipWith (List.zipWith cadd) a b

/-- The accumulating update of a per-label density matrix, transcribing
`vector_engine.hpp:129-133` and `196-200`: an empty (default-constructed)
matrix is replaced, a non-empty one is added to. -/
def gdens (a b : List (List Cx)) : List (List Cx) :=
  if a.isEmpty then b else matAdd a b

/-- A sparse real-valued ket (`map<string, double>`), as a function from
basis labels to optional values (`none` = key absent, defaults to `0`). -/
def RKet : Type := String → Option ℚ

/-- The empty `map<string, double>`. -/
def rkEmpty : RKet := fun _ => none

/-- Modelled from the spec: the misc-header `operator+=` on
`map<string, double>`: for each key of the right map, add its value into the
left map, treating absent keys as `0` (entries created on first encounter). -/
def rkadd (a b : RKet) : RKet := fun s =>
  match b s with
  | none => a s
  | some v => some ((a s).getD 0 + v)

/-- A sparse complex ket (`cket_t`, `map<string, complex_t>`), kept as the
association list produced by `vec2ket` (keys are distinct basis labels). -/
def Cket : Type := List (String × Cx)

/-- Association-list lookup, the counterpart of `std::map::find`. -/
def alookup {α β : Type} [DecidableEq α] : List (α × β) → α → Option β
  | [], _ => none
  | (k, v) :: m, l => if k = l then some v else alookup m l

/-- `m[k] op= v` on an association list: combine with the first entry for
`k` (via `g old v`), or append a fresh entry `g dflt v` when `k` is absent
(`std::map::operator[]` default-constructs `dflt` first). -/
def ainsert {α β : Type} [DecidableEq α] (g : β → β → β) (dflt : β) (k : α) (v : β) :
    List (α × β) → List (α × β)
  | [] => [(k, g dflt v)]
  | (k', v') :: m => if k' = k then (k', g v' v) :: m else (k', v') :: ainsert g dflt k v m

/-- Folding a batch of keyed updates into an association list; this is the
shape of every accumulating loop in `VectorEngine::add` and
`VectorEngine::compute_results`. -/
def amerge {α β : Type} [DecidableEq α] (g : β → β → β) (dflt : β)
    (a b : List (α × β)) : List (α × β) :=
  b.foldl (fun m p => ainsert g dflt p.1 p.2 m) a

/-- Modelled from the spec: `vec2ket` (`misc.hpp` is not in src).  Spec §4.2:
enumerate the basis indices whose (chopped) amplitude survives the chop
threshold and map their digit-string basis labels, rendered in the qudit
radix with one digit position per qudit (register sizes in reverse
declaration order fix the digit-group layout), to the surviving amplitude. -/
def basisLabel (dim idx ndigits : Nat) : String :=
  let ds := Nat.toDigits dim idx
  String.mk (List.replicate (ndigits - ds.length) '0' ++ ds)

/-- Modelled from the spec: `vec2ket`, see `basisLabel`. -/
def vec2ket (v : List Cx) (dim : Nat) (eps : ℚ) (regs : List Nat) : Cket :=
  v.enum.filterMap (fun p =>
    let a := chopC eps p.2
    if a = czero then none else some (basisLabel dim p.1 (regs.foldl (· + ·) 0), a))

/-- The real-ket derived from a complex ket, transcribing
`vector_engine.hpp:186-188` (`tmp[vals.first] = get_probs(vals.second)`;
`vec2ket` keys are distinct, so the built map is the keywise image). -/
def ketProbs (k : Cket) : RKet := fun s => (alookup k s).map get_probs_c

/-- The error thrown at `vector_engine.hpp:224-227`: the message carries the
offending target-state size and `nstates = qreg.size()`. -/
structure SizeMismatch where
  target_size : Nat
  qreg_size : Nat
deriving DecidableEq, Repr

/-- `VectorEngine`, lines 56-109: configuration, selectors, target states and
the accumulated per-label snapshot data.  `total_shots` is the only
base-engine field this layer reads (`to_json` renormalizes by it). -/
structure VectorEngine where
  qudit_dim : Nat := 2
  epsilon : ℚ := 1 / 10 ^ 10
  show_snapshots_ket : Bool := false
  show_snapshots_density : Bool := false
  show_snapshots_probs : Bool := false
  show_snapshots_probs_ket : Bool := false
  show_snapshots_inner_product : Bool := false
  show_snapshots_overlaps : Bool := false
  target_states : List (List Cx) := []
  snapshots_ket : List (List (Nat × Cket)) := []
  snapshots_density : List (Nat × List (List Cx)) := []
  snapshots_probs : List (Nat × List ℚ) := []
  snapshots_probs_ket : List (Nat × RKet) := []
  snapshots_inprods : List (Nat × List (List Cx)) := []
  snapshots_overlaps : List (Nat × List ℚ) := []
  total_shots : Nat := 0

/-- `VectorEngine::add`, lines 117-154: append the ket-snapshot list, add
density / probability / probability-ket / overlap sums per label (creating
entries on first encounter), concatenate the per-label inner-product lists.
The base-engine part is modelled from the spec (`base_engine.hpp` is not in
src): merging partial aggregates sums their shot counts. -/
def VectorEngine.add (self eng : VectorEngine) : VectorEngine :=
  { self with
    total_shots := self.total_shots + eng.total_shots
    snapshots_ket := self.snapshots_ket ++ eng.snapshots_ket
    snapshots_density := amerge gdens [] self.snapshots_density eng.snapshots_density
    snapshots_probs := amerge rvadd [] self.snapshots_probs eng.snapshots_probs
    snapshots_probs_ket := amerge rkadd rkEmpty self.snapshots_probs_ket eng.snapshots_probs_ket
    snapshots_overlaps := amerge rvadd [] self.snapshots_overlaps eng.snapshots_overlaps
    snapshots_inprods := amerge (· ++ ·) [] self.snapshots_inprods eng.snapshots_inprods }

/-- Lines 176-191: build the ket map `km` for the shot and fold it into the
ket-snapshot list and/or the probability-ket sums. -/
def ketStage (e : VectorEngine) (regs : List Nat) (snaps : List (Nat × List Cx)) :
    VectorEngine :=
  if e.show_snapshots_ket || e.show_snapshots_probs_ket then
    let km := snaps.map (fun p => (p.1, vec2ket p.2 e.qudit_dim e.epsilon regs))
    let e1 := if e.show_snapshots_ket then
      { e with snapshots_ket := e.snapshots_ket ++ [km] } else e
    if e.show_snapshots_probs_ket then
      { e1 with snapshots_probs_ket := (amerge rkadd rkEmpty e1.snapshots_probs_ket
          (km.map (fun p => (p.1, ketProbs p.2)))) }
    else e1
  else e

/-- Lines 194-202: add the outer product of each snapshot vector into the
per-label density sum. -/
def densityStage (e : VectorEngine) (snaps : List (Nat × List Cx)) : VectorEngine :=
  if e.show_snapshots_density then
    { e with snapshots_density := (amerge gdens [] e.snapshots_density
        (snaps.map (fun p => (p.1, outer_product p.2 p.2)))) }
  else e

/-- Lines 205-213: add the elementwise squared moduli of each snapshot vector
into the per-label probability sum. -/
def probsStage (e : VectorEngine) (snaps : List (Nat × List Cx)) : VectorEngine :=
  if e.show_snapshots_probs then
    { e with snapshots_probs := (amerge rvadd [] e.snapshots_probs
        (snaps.map (fun p => (p.1, get_probs_v p.2)))) }
  else e

/-- Lines 219-232: the per-snapshot inner-product computation.  Each target
state is validated against the snapshot vector's size; a mismatch throws a
`SizeMismatch` carrying the target size and `nstates = qreg.size()`.  Each
surviving inner product is chopped before being collected. -/
def compute_inprods (targets : List (List Cx)) (psi : List Cx) (eps : ℚ)
    (qregSize : Nat) : Except SizeMismatch (List Cx) :=
  match targets with
  | [] => .ok []
  | t :: ts =>
    if t.length ≠ psi.length then .error ⟨t.length, qregSize⟩
    else
      match compute_inprods ts psi eps qregSize with
      | .error err => .error err
      | .ok rest => .ok (chopC eps (inner_product psi t) :: rest)

/-- Lines 234-239: commit one snapshot's inner products: push the list under
the label (when enabled) and add the squared moduli into the overlap sum
(when enabled). -/
def commitInprods (e : VectorEngine) (l : Nat) (ips : List Cx) : VectorEngine :=
  let e1 := if e.show_snapshots_inner_product then
    { e with snapshots_inprods := ainsert (· ++ ·) [] l [ips] e.snapshots_inprods }
  else e
  if e.show_snapshots_overlaps then
    { e1 with snapshots_overlaps := ainsert rvadd [] l (get_probs_v ips) e1.snapshots_overlaps }
  else e1

/-- Lines 217-240: iterate the captured snapshots; a `SizeMismatch` aborts
the loop, leaving the state mutated only by the snapshots already
committed (in C++ the exception propagates out of `compute_results`). -/
def inprodLoop (qregSize : Nat) :
    VectorEngine → List (Nat × List Cx) → VectorEngine × Option SizeMismatch
  | e, [] => (e, none)
  | e, p :: rest =>
    match compute_inprods e.target_states p.2 e.epsilon qregSize with
    | .error err => (e, some err)
    | .ok ips => inprodLoop qregSize (commitInprods e p.1 ips) rest

/-- Lines 214-241: the inner-product/overlap section, guarded by a non-empty
target-state list and at least one of the two selectors. -/
def inprodStage (e : VectorEngine) (qreg : List Cx) (snaps : List (Nat × List Cx)) :
    VectorEngine × Option SizeMismatch :=
  if !e.target_states.isEmpty && (e.show_snapshots_inner_product || e.show_snapshots_overlaps)
  then inprodLoop qreg.length e snaps
  else (e, none)

/-- `VectorEngine::compute_results`, lines 158-243.  Inputs: the reversed
register sizes `regs` (built from `qasm.qubit_sizes`, lines 166-171), the
working register `qreg` and the captured snapshots (`be->access_snapshots()`,
a label-keyed map given here as its entry list).  The base-engine call is
modelled from the spec (`base_engine.hpp` is not in src): each compute call
processes one shot, and the guard at line 174 skips all snapshot work when
the shot captured no snapshots.  The result pairs the mutated engine with
the thrown error, if any (mutations made before the throw persist). -/
def compute_results (e : VectorEngine) (regs : List Nat) (qreg : List Cx)
    (snaps : List (Nat × List Cx)) : VectorEngine × Option SizeMismatch :=
  let e0 := { e with total_shots := e.total_shots + 1 }
  if snaps.isEmpty then (e0, none)
  else
    let e1 := ketStage e0 regs snaps
    let e2 := densityStage e1 snaps
    let e3 := probsStage e2 snaps
    inprodStage e3 qreg snaps

/-- The rendered output document (`to_json`, lines 270-332); a field is
`none` when its selector is off or its accumulated structure is empty. -/
structure OutputDoc where
  quantum_state_ket : Option (List (List (Nat × Cket)))
  density_matrix : Option (List (Nat × List (List Cx)))
  probabilities : Option (List (Nat × List ℚ))
  probabilities_ket : Option (List (Nat × RKet))
  inner_products : Option (List (Nat × List (List Cx)))
  overlaps : Option (List (Nat × List ℚ))

/-- `to_json`, lines 270-332.  Density, probability, probability-ket and
overlap sums are scaled by `renorm = 1 / total_shots` and then chopped; the
ket-snapshot list is emitted as accumulated; the inner-product lists are
emitted as accumulated as well — the source builds a chopped copy `tmp`
(lines 318-320) but then serializes `eng.snapshots_inprods` (line 321), so
no chop reaches the emitted `inner_products` field. -/
def to_json (e : VectorEngine) : OutputDoc :=
  let renorm : ℚ := 1 / (e.total_shots : ℚ)
  { quantum_state_ket :=
      if e.show_snapshots_ket && !e.snapshots_ket.isEmpty then some e.snapshots_ket else none
    density_matrix :=
      if e.show_snapshots_density && !e.snapshots_density.isEmpty then
        some (e.snapshots_density.map (fun p => (p.1, chopMat e.epsilon (matScale renorm p.2))))
      else none
    probabilities :=
      if e.show_snapshots_probs && !e.snapshots_probs.isEmpty then
        some (e.snapshots_probs.map (fun p => (p.1, chopRV e.epsilon (rvscale renorm p.2))))
      else none
    probabilities_ket :=
      if e.show_snapshots_probs_ket && !e.snapshots_probs_ket.isEmpty then
        some (e.snapshots_probs_ket.map (fun p =>
          (p.1, fun s => (p.2 s).map (fun x => chopR e.epsilon (x * renorm)))))
      else none
    inner_products :=
      if e.show_snapshots_inner_product && !e.snapshots_inprods.isEmpty then
        some e.snapshots_inprods
      else none
    overlaps :=
      if e.show_snapshots_overlaps && !e.snapshots_overlaps.isEmpty then
        some (e.snapshots_overlaps.map (fun p => (p.1, chopRV e.epsilon (rvscale renorm p.2))))
      else none }

/-- The state-passing form of the render call `to_json(js, eng)`: the engine
is taken by const reference, so the call returns the document and hands the
engine back unchanged. -/
def render_state (e : VectorEngine) : OutputDoc × VectorEngine := (to_json e, e)

/-- Modelled from the spec: token normalization in `from_json`
(lines 342-343); `to_lowercase` and `string_trim` live in `misc.hpp`, which
is not in src — spec §4.1: case-fold, then trim surrounding whitespace. -/
def normalize_token (s : String) : String := s.toLower.trim

/-- One iteration of the token loop in `from_json`, lines 345-356. -/
def apply_token (e : VectorEngine) (o : String) : VectorEngine :=
  let t := normalize_token o
  if t = "quantumstateket" ∨ t = "quantumstatesket" then
    { e with show_snapshots_ket := true }
  else if t = "densitymatrix" then
    { e with show_snapshots_density := true }
  else if t = "probabilities" ∨ t = "probs" then
    { e with show_snapshots_probs := true }
  else if t = "probabilitiesket" ∨ t = "probsket" then
    { e with show_snapshots_probs_ket := true }
  else if t = "targetstatesinner" then
    { e with show_snapshots_inner_product := true }
  else if t = "targetstatesprobs" then
    { e with show_snapshots_overlaps := true }
  else e

/-- The `data` part of `from_json`, lines 334-358: the engine is reset to a
freshly-constructed `VectorEngine` and the token list (when present) is
folded over the recognizer; unrecognized tokens fall through silently. -/
def from_json_data (opts : List String) : VectorEngine :=
  opts.foldl apply_token {}

/-- One shot's input to `compute_results`: the working register and the
captured labeled snapshot vectors (map entries in key order). -/
structure Shot where
  qreg : List Cx
  snaps : List (Nat × List Cx)
deriving DecidableEq

/-- Sequential processing of a list of shots on one accumulator. -/
def runShots (e : VectorEngine) (regs : List Nat) (shots : List Shot) : VectorEngine :=
  shots.foldl (fun acc sh => (compute_results acc regs sh.qreg sh.snaps).1) e

/-- A grouping of consecutive shot groups into pairwise merges. -/
inductive MergeTree where
  | leaf : List Shot → MergeTree
  | node : MergeTree → MergeTree → MergeTree
deriving DecidableEq

/-- The groups at the leaves, left to right. -/
def MergeTree.groups : MergeTree → List (List Shot)
  | .leaf g => [g]
  | .node l r => l.groups ++ r.groups

/-- Run each leaf group on its own fresh copy of the configured engine and
merge the results according to the tree. -/
def MergeTree.run (e0 : VectorEngine) (regs : List Nat) : MergeTree → VectorEngine
  | .leaf g => runShots e0 regs g
  | .node l r => (l.run e0 regs).add (r.run e0 regs)

/-- An engine whose accumulators have not yet absorbed any shot. -/
def VectorEngine.freshAcc (e : VectorEngine) : Prop :=
  e.snapshots_ket = [] ∧ e.snapshots_density = [] ∧ e.snapshots_probs = [] ∧
  e.snapshots_probs_ket = [] ∧ e.snapshots_inprods = [] ∧ e.snapshots_overlaps = []

/-- Well-formedness of one shot against a common state dimension `n`: the
snapshot map has distinct labels (it is a `std::map`) and every captured
vector has length `n`. -/
def Shot.wf (n : Nat) (sh : Shot) : Prop :=
  (sh.snaps.map Prod.fst).Nodup ∧ ∀ p ∈ sh.snaps, (p.2 : List Cx).length = n

/-- The effect, on one label's slot, of folding one more batch value into an
accumulating map: `none` batches leave the slot alone, a batch value `v`
turns the slot into `g (current or default) v`.  This is exactly what
`ainsert` does to the looked-up label. -/
def oacc {V : Type} (g : V → V → V) (dflt : V) (x : Option V) (y : Option V) : Option V :=
  match y with
  | none => x
  | some v => some (g (x.getD dflt) v)

/-- Iterated `oacc` over a list of per-shot contributions. -/
def ofold {V : Type} (g : V → V → V) (dflt : V) (x : Option V) (os : List (Option V)) :
    Option V :=
  os.foldl (oacc g dflt) x

/-- Lifting a value predicate to `Option`. -/
def OptP {V : Type} (P : V → Prop) : Option V → Prop := fun o => ∀ v, o = some v → P v

/-- The per-snapshot density contribution (line 198). -/
def densC (v : List Cx) : List (List Cx) := outer_product v v

/-- The per-snapshot probability-ket contribution (lines 179, 186-188). -/
def pkC (dim : Nat) (eps : ℚ) (regs : List Nat) (v : List Cx) : RKet :=
  ketProbs (vec2ket v dim eps regs)

/-- The per-snapshot inner-product row (lines 219-232, all targets valid). -/
def ipsC (targets : List (List Cx)) (eps : ℚ) (v : List Cx) : List Cx :=
  targets.map (fun t => chopC eps (inner_product v t))

/-- The per-snapshot overlap contribution (line 239). -/
def ovC (targets : List (List Cx)) (eps : ℚ) (v : List Cx) : List ℚ :=
  get_probs_v (ipsC targets eps v)

/-- Per-label contribution stream of a shot sequence: one optional
contribution per shot, present when the shot captured the label. -/
def contribs {V : Type} (c : List Cx → V) (shots : List Shot) (l : Nat) : List (Option V) :=
  shots.map (fun sh => (alookup sh.snaps l).map c)

/-- The ket map `km` a shot pushes onto the ket-snapshot list (line 179). -/
def ketContrib (dim : Nat) (eps : ℚ) (regs : List Nat) (sh : Shot) : List (Nat × Cket) :=
  sh.snaps.map (fun p => (p.1, vec2ket p.2 dim eps regs))

/-- The ket-snapshot entries a shot sequence appends, in shot order: one
`km` per shot that captured at least one snapshot. -/
def ketTrace (dim : Nat) (eps : ℚ) (regs : List Nat) (shots : List Shot) :
    List (List (Nat × Cket)) :=
  shots.filterMap (fun sh =>
    if sh.snaps.isEmpty then none else some (ketContrib dim eps regs sh))

/-- Well-formed probability-style vectors: the right length and non-empty,
so that the modelled elementwise `+=` is genuinely elementwise. -/
def PVec (n : Nat) (v : List ℚ) : Prop := v.length = n ∧ v ≠ []

/-- Well-formed density matrices: `n` rows of length `n`, non-empty. -/
def PMat (n : Nat) (m : List (List Cx)) : Prop :=
  m.length = n ∧ m ≠ [] ∧ ∀ row ∈ m, row.length = n

/-- Distinct labels in every accumulated label-keyed container, as
`std::map` guarantees for an engine built through the API. -/
def VectorEngine.nodupKeys (e : VectorEngine) : Prop :=
  (e.snapshots_density.map Prod.fst).Nodup ∧
  (e.snapshots_probs.map Prod.fst).Nodup ∧
  (e.snapshots_probs_ket.map Prod.fst).Nodup ∧
  (e.snapshots_inprods.map Prod.fst).Nodup ∧
  (e.snapshots_overlaps.map Prod.fst).Nodup

/-- Two engines with the same configuration (selectors, thresholds, targets);
`compute_results` only mutates accumulated data, never configuration. -/
def sameConfig (a b : VectorEngine) : Prop :=
  a.qudit_dim = b.qudit_dim ∧ a.epsilon = b.epsilon ∧
  a.show_snapshots_ket = b.show_snapshots_ket ∧
  a.show_snapshots_density = b.show_snapshots_density ∧
  a.show_snapshots_probs = b.show_snapshots_probs ∧
  a.show_snapshots_probs_ket = b.show_snapshots_probs_ket ∧
  a.show_snapshots_inner_product = b.show_snapshots_inner_product ∧
  a.show_snapshots_overlaps = b.show_snapshots_overlaps ∧
  a.target_states = b.target_states

/-- The ket/density/probability stages of `compute_results` (run before the
inner-product section), starting from the base-engine shot count update. -/
def preStages (e : VectorEngine) (regs : List Nat) (snaps : List (Nat × List Cx)) :
    VectorEngine :=
  probsStage (densityStage (ketStage { e with total_shots := e.total_shots + 1 } regs snaps)
    snaps) snaps

instance shotWfDecidable (n : Nat) (sh : Shot) : Decidable (Shot.wf n sh) := by
  unfold Shot.wf
  infer_instance

instance nodupKeysDecidable (e : VectorEngine) : Decidable e.nodupKeys := by
  unfold VectorEngine.nodupKeys
  infer_instance

/-- A fully-enabled engine configuration with a single one-qubit target
state, used as a concrete evaluation point. -/
def c1Engine : VectorEngine :=
  { show_snapshots_ket := true, show_snapshots_density := true,
    show_snapshots_probs := true, show_snapshots_probs_ket := true,
    show_snapshots_inner_product := true, show_snapshots_overlaps := true,
    target_states := [[⟨1, 0⟩]] }

/-- A concrete shot capturing the state `|0⟩` under label 0. -/
def c1Shot1 : Shot := ⟨[⟨1, 0⟩], [(0, [⟨1, 0⟩])]⟩

/-- A concrete shot capturing the state `i·|0⟩` under label 0. -/
def c1Shot2 : Shot := ⟨[⟨0, 1⟩], [(0, [⟨0, 1⟩])]⟩

/-- A two-leaf merge tree over the two concrete shots. -/
def c1Tree : MergeTree := .node (.leaf [c1Shot1]) (.leaf [c1Shot2])

/-- The corresponding partition into two singleton groups. -/
def c1Groups : List (List Shot) := [[c1Shot1], [c1Shot2]]

/-- An engine with one accumulated entry in every category, used as a
concrete evaluation point for the merge-identity property. -/
def c10Engine : VectorEngine :=
  { snapshots_ket := [[(0, [("0", ⟨1, 0⟩)])]],
    snapshots_density := [(0, [[⟨1, 0⟩]])],
    snapshots_probs := [(0, [1])],
    snapshots_probs_ket := [(0, fun s => if s = "0" then some 1 else none)],
    snapshots_inprods := [(0, [[⟨1, 0⟩]])],
    snapshots_overlaps := [(0, [1])],
    total_shots := 1 }

/-- An engine with inner-product output enabled and a mismatched second
target state (length 2), used as a concrete evaluation point. -/
def c2Engine : VectorEngine :=
  { show_snapshots_inner_product := true,
    target_states := [[⟨1, 0⟩], [⟨1, 0⟩, ⟨0, 0⟩]] }

/-- An engine with inner-product and overlap output enabled and one
two-dimensional target state, used as a concrete evaluation point. -/
def c7Engine : VectorEngine :=
  { show_snapshots_inner_product := true, show_snapshots_overlaps := true,
    target_states := [[⟨1, 0⟩, ⟨0, 0⟩]] }

/-- A snapshot vector whose inner product with the target of `c7Engine` has
a real part of `10⁻²⁰`, far below the default chop threshold `10⁻¹⁰`. -/
def c7Psi : List Cx := [⟨1 / 10 ^ 20, 0⟩, ⟨1, 0⟩]

/-- The engine of `c10Engine` with every output selector enabled, used as a
concrete evaluation point for rendering. -/
def c3Engine : VectorEngine :=
  { c10Engine with
    show_snapshots_ket := true
    show_snapshots_density := true
    show_snapshots_probs := true
    show_snapshots_probs_ket := true
    show_snapshots_inner_product := true
    show_snapshots_overlaps := true }

/-- An engine holding one accumulated inner-product entry whose only
component, `10⁻²⁰`, lies strictly below the chop threshold `10⁻¹⁰`. -/
def c4Engine : VectorEngine :=
  { show_snapshots_inner_product := true,
    snapshots_inprods := [(0, [[⟨1 / 10 ^ 20, 0⟩]])],
    total_shots := 1 }

/-- The engine of `c3Engine` with different target states and qudit radix,
used to check that rendering reads neither. -/
def c6Engine2 : VectorEngine :=
  { c3Engine with
    target_states := [[⟨1, 0⟩]]
    qudit_dim := 5 }

/-! ### Association-list lemmas -/

theorem alookup_eq_none {α β : Type} [DecidableEq α] {m : List (α × β)} {k : α}
    (h : k ∉ m.map Prod.fst) : alookup m k = none := by
  induction m with
  | nil => rfl
  | cons p m ih =>
    obtain ⟨k', v'⟩ := p
    simp only [List.map_cons, List.mem_cons] at h
    push_neg at h
    have hk : k' ≠ k := fun hkk => h.1 hkk.symm
    simp only [alookup, if_neg hk]
    exact ih h.2

theorem alookup_mem {α β : Type} [DecidableEq α] {m : List (α × β)} {k : α} {v : β}
    (h : alookup m k = some v) : (k, v) ∈ m := by
  induction m with
  | nil => simp [alookup] at h
  | cons p m ih =>
    obtain ⟨k', v'⟩ := p
    simp only [alookup] at h
    by_cases hk : k' = k
    · subst hk
      rw [if_pos rfl] at h
      cases h
      exact List.mem_cons_self _ _
    · rw [if_neg hk] at h
      exact List.mem_cons_of_mem _ (ih h)

theorem alookup_of_mem_nodup {α β : Type} [DecidableEq α] {m : List (α × β)} {k : α} {v : β}
    (hnd : (m.map Prod.fst).Nodup) (h : (k, v) ∈ m) : alookup m k = some v := by
  induction m with
  | nil => cases h
  | cons p m ih =>
    obtain ⟨k', v'⟩ := p
    simp only [List.map_cons, List.nodup_cons] at hnd
    rcases List.mem_cons.mp h with h1 | h1
    · cases h1
      simp [alookup]
    · have hk : k' ≠ k := by
        intro hkk
        subst hkk
        exact hnd.1 (List.mem_map.mpr ⟨(k', v), h1, rfl⟩)
      simp only [alookup, if_neg hk]
      exact ih hnd.2 h1

theorem alookup_map_snd {α β γ : Type} [DecidableEq α] (f : β → γ) (m : List (α × β)) (k : α) :
    alookup (m.map (fun p => (p.1, f p.2))) k = (alookup m k).map f := by
  induction m with
  | nil => rfl
  | cons p m ih =>
    obtain ⟨k', v'⟩ := p
    by_cases hk : k' = k
    · subst hk
      simp [alookup]
    · simp [alookup, if_neg hk, ih]

theorem alookup_ainsert {α β : Type} [DecidableEq α] (g : β → β → β) (dflt : β)
    (k : α) (v : β) (m : List (α × β)) (l : α) :
    alookup (ainsert g dflt k v m) l =
      if k = l then some (g ((alookup m k).getD dflt) v) else alookup m l := by
  induction m with
  | nil =>
    by_cases hl : k = l <;> simp [ainsert, alookup, hl]
  | cons p m ih =>
    obtain ⟨k', v'⟩ := p
    by_cases hk : k' = k
    · subst hk
      by_cases hl : k' = l
      · subst hl
        simp [ainsert, alookup]
      · simp [ainsert, alookup, if_neg hl, if_neg (fun h : k' = l => hl h)]
    · by_cases hl : k' = l
      · subst hl
        have hkl : ¬ k = k' := fun h => hk h.symm
        simp [ainsert, alookup, if_neg hk, if_neg hkl]
      · simp [ainsert, alookup, if_neg hk, if_neg hl, ih]

theorem keys_ainsert {α β : Type} [DecidableEq α] (g : β → β → β) (dflt : β)
    (k : α) (v : β) (m : List (α × β)) :
    (ainsert g dflt k v m).map Prod.fst =
      if k ∈ m.map Prod.fst then m.map Prod.fst else m.map Prod.fst ++ [k] := by
  induction m with
  | nil => simp [ainsert]
  | cons p m ih =>
    obtain ⟨k', v'⟩ := p
    by_cases hk : k' = k
    · subst hk
      simp [ainsert]
    · have hk' : ¬ k = k' := fun h => hk h.symm
      by_cases hmem : k ∈ m.map Prod.fst
      · simp [ainsert, if_neg hk, ih, hmem, hk']
      · simp [ainsert, if_neg hk, ih, hmem, hk']

theorem nodup_keys_ainsert {α β : Type} [DecidableEq α] (g : β → β → β) (dflt : β)
    (k : α) (v : β) (m : List (α × β)) (hnd : (m.map Prod.fst).Nodup) :
    ((ainsert g dflt k v m).map Prod.fst).Nodup := by
  rw [keys_ainsert]
  by_cases hmem : k ∈ m.map Prod.fst
  · simpa [hmem] using hnd
  · simp only [hmem, if_false]
    simp [List.nodup_append, hnd, hmem]

theorem nodup_keys_amerge {α β : Type} [DecidableEq α] (g : β → β → β) (dflt : β)
    (a b : List (α × β)) (hnd : (a.map Prod.fst).Nodup) :
    ((amerge g dflt a b).map Prod.fst).Nodup := by
  induction b generalizing a with
  | nil => exact hnd
  | cons p b ih => exact ih _ (nodup_keys_ainsert g dflt p.1 p.2 a hnd)

theorem alookup_amerge {α β : Type} [DecidableEq α] (g : β → β → β) (dflt : β)
    (a b : List (α × β)) (hnd : (b.map Prod.fst).Nodup) (l : α) :
    alookup (amerge g dflt a b) l = oacc g dflt (alookup a l) (alookup b l) := by
  induction b generalizing a with
  | nil => rfl
  | cons p b ih =>
    obtain ⟨k, v⟩ := p
    simp only [List.map_cons, List.nodup_cons] at hnd
    have hstep : amerge g dflt a ((k, v) :: b) = amerge g dflt (ainsert g dflt k v a) b := rfl
    rw [hstep, ih _ hnd.2]
    by_cases hl : k = l
    · subst hl
      have hbk : alookup b k = none := alookup_eq_none hnd.1
      rw [hbk, alookup_ainsert]
      simp [alookup, oacc]
    · rw [alookup_ainsert, if_neg hl]
      simp [alookup, if_neg hl, oacc]

/-! ### Generic accumulation lemmas

All per-label sum fields evolve by `oacc`-folding per-shot contributions;
the following lemmas isolate the algebra those folds need, parameterized by
a well-formedness predicate `P` under which the combining operation is
unital, associative, and (for reorderings) commutative.
-/

theorem oacc_none_right {V : Type} (g : V → V → V) (dflt : V) (x : Option V) :
    oacc g dflt x none = x := rfl

theorem OptP_none {V : Type} (P : V → Prop) : OptP P none := by
  intro v h
  cases h

theorem OptP_oacc {V : Type} {g : V → V → V} {dflt : V} {P : V → Prop}
    (hid : ∀ v, P v → g dflt v = v) (hcl : ∀ a b, P a → P b → P (g a b))
    {x y : Option V} (hx : OptP P x) (hy : OptP P y) : OptP P (oacc g dflt x y) := by
  cases y with
  | none => exact hx
  | some v =>
    intro w hw
    cases x with
    | none =>
      simp only [oacc, Option.getD] at hw
      cases hw
      rw [hid v (hy v rfl)]
      exact hy v rfl
    | some u =>
      simp only [oacc, Option.getD] at hw
      cases hw
      exact hcl u v (hx u rfl) (hy v rfl)

theorem oacc_assoc {V : Type} {g : V → V → V} {dflt : V} {P : V → Prop}
    (hid : ∀ v, P v → g dflt v = v)
    (hassoc : ∀ a b c, P a → P b → P c → g (g a b) c = g a (g b c))
    (hcl : ∀ a b, P a → P b → P (g a b))
    {x y z : Option V} (hx : OptP P x) (hy : OptP P y) (hz : OptP P z) :
    oacc g dflt (oacc g dflt x y) z = oacc g dflt x (oacc g dflt y z) := by
  cases z with
  | none => rfl
  | some vz =>
    cases y with
    | none =>
      cases x with
      | none => simp [oacc, hid vz (hz vz rfl)]
      | some u => simp [oacc, hid vz (hz vz rfl)]
    | some vy =>
      cases x with
      | none =>
        have hvy := hy vy rfl
        have hvz := hz vz rfl
        simp [oacc, hid vy hvy, hid (g vy vz) (hcl vy vz hvy hvz)]
      | some u =>
        simp [oacc, hassoc u vy vz (hx u rfl) (hy vy rfl) (hz vz rfl)]

theorem oacc_comm {V : Type} {g : V → V → V} {dflt : V} {P : V → Prop}
    (hid : ∀ v, P v → g dflt v = v)
    (hcomm : ∀ a b, P a → P b → g a b = g b a)
    {x y : Option V} (hx : OptP P x) (hy : OptP P y) :
    oacc g dflt x y = oacc g dflt y x := by
  cases x with
  | none =>
    cases y with
    | none => rfl
    | some v => simp [oacc, hid v (hy v rfl)]
  | some u =>
    cases y with
    | none => simp [oacc, hid u (hx u rfl)]
    | some v => simp [oacc, hcomm u v (hx u rfl) (hy v rfl)]

theorem ofold_cons {V : Type} (g : V → V → V) (dflt : V) (x o : Option V)
    (os : List (Option V)) :
    ofold g dflt x (o :: os) = ofold g dflt (oacc g dflt x o) os := rfl

theorem ofold_append {V : Type} (g : V → V → V) (dflt : V) (x : Option V)
    (os os' : List (Option V)) :
    ofold g dflt x (os ++ os') = ofold g dflt (ofold g dflt x os) os' := by
  simp [ofold, List.foldl_append]

theorem OptP_ofold {V : Type} {g : V → V → V} {dflt : V} {P : V → Prop}
    (hid : ∀ v, P v → g dflt v = v) (hcl : ∀ a b, P a → P b → P (g a b))
    {x : Option V} {os : List (Option V)} (hx : OptP P x)
    (hos : ∀ o ∈ os, OptP P o) : OptP P (ofold g dflt x os) := by
  induction os generalizing x with
  | nil => exact hx
  | cons o os ih =>
    rw [ofold_cons]
    exact ih (OptP_oacc hid hcl hx (hos o (List.mem_cons_self o os)))
      (fun o' ho' => hos o' (List.mem_cons_of_mem o ho'))

theorem oacc_ofold {V : Type} {g : V → V → V} {dflt : V} {P : V → Prop}
    (hid : ∀ v, P v → g dflt v = v)
    (hassoc : ∀ a b c, P a → P b → P c → g (g a b) c = g a (g b c))
    (hcl : ∀ a b, P a → P b → P (g a b))
    {x y : Option V} {os : List (Option V)} (hx : OptP P x) (hy : OptP P y)
    (hos : ∀ o ∈ os, OptP P o) :
    oacc g dflt x (ofold g dflt y os) = ofold g dflt (oacc g dflt x y) os := by
  induction os generalizing y with
  | nil => rfl
  | cons o os ih =>
    rw [ofold_cons, ofold_cons]
    rw [ih (OptP_oacc hid hcl hy (hos o (List.mem_cons_self o os)))
      (fun o' ho' => hos o' (List.mem_cons_of_mem o ho'))]
    rw [oacc_assoc hid hassoc hcl hx hy (hos o (List.mem_cons_self o os))]

theorem ofold_none_eq {V : Type} {g : V → V → V} {dflt : V} {P : V → Prop}
    (hid : ∀ v, P v → g dflt v = v)
    (hassoc : ∀ a b c, P a → P b → P c → g (g a b) c = g a (g b c))
    (hcl : ∀ a b, P a → P b → P (g a b))
    {x : Option V} {os : List (Option V)} (hx : OptP P x)
    (hos : ∀ o ∈ os, OptP P o) :
    oacc g dflt x (ofold g dflt none os) = ofold g dflt x os := by
  rw [oacc_ofold hid hassoc hcl hx (OptP_none P) hos]
  rfl

theorem ofold_perm {V : Type} {g : V → V → V} {dflt : V} {P : V → Prop}
    (hid : ∀ v, P v → g dflt v = v)
    (hassoc : ∀ a b c, P a → P b → P c → g (g a b) c = g a (g b c))
    (hcomm : ∀ a b, P a → P b → g a b = g b a)
    (hcl : ∀ a b, P a → P b → P (g a b))
    {os os' : List (Option V)} (h : os.Perm os') (hos : ∀ o ∈ os, OptP P o)
    {x : Option V} (hx : OptP P x) :
    ofold g dflt x os = ofold g dflt x os' := by
  induction h generalizing x with
  | nil => rfl
  | cons o hp ih =>
    rw [ofold_cons, ofold_cons]
    exact ih (fun o' ho' => hos o' (List.mem_cons_of_mem o ho'))
      (OptP_oacc hid hcl hx (hos o (List.mem_cons_self o _)))
  | swap o1 o2 l =>
    rw [ofold_cons, ofold_cons, ofold_cons, ofold_cons]
    have h1 : OptP P o1 := hos o1 (by simp)
    have h2 : OptP P o2 := hos o2 (by simp)
    have key : oacc g dflt (oacc g dflt x o2) o1 = oacc g dflt (oacc g dflt x o1) o2 := by
      rw [oacc_assoc hid hassoc (fun a b ha hb => hcl a b ha hb) hx h2 h1]
      rw [oacc_comm hid hcomm h2 h1]
      rw [← oacc_assoc hid hassoc (fun a b ha hb => hcl a b ha hb) hx h1 h2]
    rw [key]
  | trans hp1 hp2 ih1 ih2 =>
    rw [ih1 hos hx]
    exact ih2 (fun o ho => hos o (hp1.mem_iff.mpr ho)) hx

/-! ### Algebra of the concrete combining operations -/

theorem zipWith_op_assoc {α : Type} (f : α → α → α)
    (hf : ∀ x y z, f (f x y) z = f x (f y z)) :
    ∀ a b c : List α, List.zipWith f (List.zipWith f a b) c
      = List.zipWith f a (List.zipWith f b c) := by
  intro a
  induction a with
  | nil => intro b c; rfl
  | cons x a ih =>
    intro b c
    cases b with
    | nil => rfl
    | cons y b =>
      cases c with
      | nil => rfl
      | cons z c => simp [List.zipWith, hf, ih]

theorem zipWith_op_comm {α : Type} (f : α → α → α) (hf : ∀ x y, f x y = f y x) :
    ∀ a b : List α, List.zipWith f a b = List.zipWith f b a := by
  intro a
  induction a with
  | nil => intro b; cases b <;> rfl
  | cons x a ih =>
    intro b
    cases b with
    | nil => rfl
    | cons y b => simp [List.zipWith, hf, ih]

theorem mem_zipWith {α β γ : Type} {f : α → β → γ} {c : γ} :
    ∀ {a : List α} {b : List β}, c ∈ List.zipWith f a b →
      ∃ x ∈ a, ∃ y ∈ b, c = f x y := by
  intro a
  induction a with
  | nil => intro b h; cases h
  | cons x a ih =>
    intro b h
    cases b with
    | nil => cases h
    | cons y b =>
      rcases List.mem_cons.mp h with h1 | h1
      · exact ⟨x, List.mem_cons_self _ _, y, List.mem_cons_self _ _, h1⟩
      · obtain ⟨x', hx', y', hy', hc⟩ := ih h1
        exact ⟨x', List.mem_cons_of_mem _ hx', y', List.mem_cons_of_mem _ hy', hc⟩

theorem cadd_assoc (a b c : Cx) : cadd (cadd a b) c = cadd a (cadd b c) := by
  simp only [cadd, Cx.mk.injEq]
  constructor <;> ring

theorem cadd_comm (a b : Cx) : cadd a b = cadd b a := by
  simp only [cadd, Cx.mk.injEq]
  constructor <;> ring

theorem rvadd_nil_left (v : List ℚ) : rvadd [] v = v := rfl

theorem rvadd_of_ne_nil {a : List ℚ} (h : a ≠ []) (b : List ℚ) :
    rvadd a b = List.zipWith (· + ·) a b := by
  cases a with
  | nil => exact absurd rfl h
  | cons x a => rfl

theorem PVec_rvadd {n : Nat} {a b : List ℚ} (ha : PVec n a) (hb : PVec n b) :
    PVec n (rvadd a b) := by
  have hn : 0 < n := ha.1 ▸ List.length_pos.mpr ha.2
  rw [rvadd_of_ne_nil ha.2]
  have hlen : (List.zipWith (· + ·) a b).length = n := by
    rw [List.length_zipWith, ha.1, hb.1, Nat.min_self]
  exact ⟨hlen, List.length_pos.mp (hlen ▸ hn)⟩

theorem rvadd_assocP {n : Nat} {a b c : List ℚ} (ha : PVec n a) (hb : PVec n b)
    (hc : PVec n c) : rvadd (rvadd a b) c = rvadd a (rvadd b c) := by
  have hab := PVec_rvadd ha hb
  have hne : List.zipWith (· + ·) a b ≠ [] := rvadd_of_ne_nil ha.2 b ▸ hab.2
  rw [rvadd_of_ne_nil ha.2 b, rvadd_of_ne_nil hne c, rvadd_of_ne_nil hb.2 c,
    rvadd_of_ne_nil ha.2]
  exact zipWith_op_assoc _ (fun x y z => add_assoc x y z) a b c

theorem rvadd_commP {n : Nat} {a b : List ℚ} (ha : PVec n a) (hb : PVec n b) :
    rvadd a b = rvadd b a := by
  rw [rvadd_of_ne_nil ha.2, rvadd_of_ne_nil hb.2]
  exact zipWith_op_comm _ (fun x y => add_comm x y) a b

theorem gdens_nil_left (v : List (List Cx)) : gdens [] v = v := rfl

theorem gdens_of_ne_nil {a : List (List Cx)} (h : a ≠ []) (b : List (List Cx)) :
    gdens a b = matAdd a b := by
  cases a with
  | nil => exact absurd rfl h
  | cons x a => rfl

theorem PMat_matAdd {n : Nat} {a b : List (List Cx)} (ha : PMat n a) (hb : PMat n b) :
    PMat n (matAdd a b) := by
  obtain ⟨hal, hane, har⟩ := ha
  obtain ⟨hbl, hbne, hbr⟩ := hb
  have hn : 0 < n := hal ▸ List.length_pos.mpr hane
  have hlen : (matAdd a b).length = n := by
    rw [matAdd, List.length_zipWith, hal, hbl, Nat.min_self]
  refine ⟨hlen, List.length_pos.mp (hlen ▸ hn), ?_⟩
  intro row hrow
  obtain ⟨x, hx, y, hy, hrc⟩ := mem_zipWith hrow
  rw [hrc, List.length_zipWith, har x hx, hbr y hy, Nat.min_self]

theorem matAdd_assoc (a b c : List (List Cx)) :
    matAdd (matAdd a b) c = matAdd a (matAdd b c) :=
  zipWith_op_assoc _ (zipWith_op_assoc cadd cadd_assoc) a b c

theorem matAdd_comm (a b : List (List Cx)) : matAdd a b = matAdd b a :=
  zipWith_op_comm _ (zipWith_op_comm cadd cadd_comm) a b

theorem PMat_gdens {n : Nat} {a b : List (List Cx)} (ha : PMat n a) (hb : PMat n b) :
    PMat n (gdens a b) := by
  rw [gdens_of_ne_nil ha.2.1]
  exact PMat_matAdd ha hb

theorem gdens_assocP {n : Nat} {a b c : List (List Cx)} (ha : PMat n a) (hb : PMat n b)
    (hc : PMat n c) : gdens (gdens a b) c = gdens a (gdens b c) := by
  rw [gdens_of_ne_nil ha.2.1, gdens_of_ne_nil (PMat_matAdd ha hb).2.1,
    gdens_of_ne_nil ha.2.1, gdens_of_ne_nil hb.2.1]
  exact matAdd_assoc a b c

theorem gdens_commP {n : Nat} {a b : List (List Cx)} (ha : PMat n a) (hb : PMat n b) :
    gdens a b = gdens b a := by
  rw [gdens_of_ne_nil ha.2.1, gdens_of_ne_nil hb.2.1]
  exact matAdd_comm a b

theorem rkadd_empty_left (v : RKet) : rkadd rkEmpty v = v := by
  funext s
  cases hv : v s with
  | none => simp [rkadd, rkEmpty, hv]
  | some x => simp [rkadd, rkEmpty, hv]

theorem rkadd_assoc (a b c : RKet) : rkadd (rkadd a b) c = rkadd a (rkadd b c) := by
  funext s
  cases hc : c s with
  | none =>
    cases hb : b s with
    | none => simp [rkadd, hb, hc]
    | some y => simp [rkadd, hb, hc]
  | some z =>
    cases hb : b s with
    | none =>
      cases ha : a s with
      | none => simp [rkadd, ha, hb, hc]
      | some x => simp [rkadd, ha, hb, hc]
    | some y =>
      cases ha : a s with
      | none => simp [rkadd, ha, hb, hc, add_assoc]
      | some x => simp [rkadd, ha, hb, hc, add_assoc]

theorem rkadd_comm (a b : RKet) : rkadd a b = rkadd b a := by
  funext s
  cases ha : a s with
  | none =>
    cases hb : b s with
    | none => simp [rkadd, ha, hb]
    | some y => simp [rkadd, ha, hb]
  | some x =>
    cases hb : b s with
    | none => simp [rkadd, ha, hb]
    | some y => simp [rkadd, ha, hb, add_comm]

/-! ### Closed forms of the compute stages -/

theorem ketStage_eq (e : VectorEngine) (regs : List Nat) (snaps : List (Nat × List Cx)) :
    ketStage e regs snaps = { e with
      snapshots_ket := if e.show_snapshots_ket
        then e.snapshots_ket ++
          [snaps.map (fun p => (p.1, vec2ket p.2 e.qudit_dim e.epsilon regs))]
        else e.snapshots_ket
      snapshots_probs_ket := if e.show_snapshots_probs_ket
        then amerge rkadd rkEmpty e.snapshots_probs_ket
          ((snaps.map (fun p => (p.1, vec2ket p.2 e.qudit_dim e.epsilon regs))).map
            (fun p => (p.1, ketProbs p.2)))
        else e.snapshots_probs_ket } := by
  unfold ketStage
  by_cases h1 : e.show_snapshots_ket <;> by_cases h2 : e.show_snapshots_probs_ket <;>
    cases e <;> simp_all

theorem densityStage_eq (e : VectorEngine) (snaps : List (Nat × List Cx)) :
    densityStage e snaps = { e with
      snapshots_density := if e.show_snapshots_density
        then amerge gdens [] e.snapshots_density (snaps.map (fun p => (p.1, densC p.2)))
        else e.snapshots_density } := by
  unfold densityStage
  by_cases h : e.show_snapshots_density <;> cases e <;> simp_all [densC]

theorem probsStage_eq (e : VectorEngine) (snaps : List (Nat × List Cx)) :
    probsStage e snaps = { e with
      snapshots_probs := if e.show_snapshots_probs
        then amerge rvadd [] e.snapshots_probs (snaps.map (fun p => (p.1, get_probs_v p.2)))
        else e.snapshots_probs } := by
  unfold probsStage
  by_cases h : e.show_snapshots_probs <;> cases e <;> simp_all

theorem commitInprods_eq (e : VectorEngine) (l : Nat) (ips : List Cx) :
    commitInprods e l ips = { e with
      snapshots_inprods := if e.show_snapshots_inner_product
        then ainsert (· ++ ·) [] l [ips] e.snapshots_inprods
        else e.snapshots_inprods
      snapshots_overlaps := if e.show_snapshots_overlaps
        then ainsert rvadd [] l (get_probs_v ips) e.snapshots_overlaps
        else e.snapshots_overlaps } := by
  unfold commitInprods
  by_cases h1 : e.show_snapshots_inner_product <;> by_cases h2 : e.show_snapshots_overlaps <;>
    cases e <;> simp_all

theorem compute_inprods_ok {targets : List (List Cx)} {psi : List Cx} (eps : ℚ) (q : Nat)
    (h : ∀ t ∈ targets, t.length = psi.length) :
    compute_inprods targets psi eps q = .ok (ipsC targets eps psi) := by
  induction targets with
  | nil => rfl
  | cons t ts ih =>
    have ht : t.length = psi.length := h t (List.mem_cons_self _ _)
    simp [compute_inprods, ht, ih (fun t' ht' => h t' (List.mem_cons_of_mem _ ht')), ipsC]

theorem sameConfig_refl (e : VectorEngine) : sameConfig e e :=
  ⟨rfl, rfl, rfl, rfl, rfl, rfl, rfl, rfl, rfl⟩

theorem sameConfig_trans {a b c : VectorEngine} (h1 : sameConfig a b)
    (h2 : sameConfig b c) : sameConfig a c := by
  obtain ⟨a1, a2, a3, a4, a5, a6, a7, a8, a9⟩ := h1
  obtain ⟨b1, b2, b3, b4, b5, b6, b7, b8, b9⟩ := h2
  exact ⟨a1.trans b1, a2.trans b2, a3.trans b3, a4.trans b4, a5.trans b5,
    a6.trans b6, a7.trans b7, a8.trans b8, a9.trans b9⟩

theorem commitInprods_sameConfig (e : VectorEngine) (l : Nat) (ips : List Cx) :
    sameConfig (commitInprods e l ips) e := by
  rw [commitInprods_eq]
  exact ⟨rfl, rfl, rfl, rfl, rfl, rfl, rfl, rfl, rfl⟩

theorem inprodLoop_sameConfig (q : Nat) (snaps : List (Nat × List Cx)) (e : VectorEngine) :
    sameConfig ((inprodLoop q e snaps).1) e := by
  induction snaps generalizing e with
  | nil => exact sameConfig_refl e
  | cons p snaps ih =>
    cases hcp : compute_inprods e.target_states p.2 e.epsilon q with
    | error err => simp [inprodLoop, hcp]; exact sameConfig_refl e
    | ok ips =>
      simp only [inprodLoop, hcp]
      exact sameConfig_trans (ih (commitInprods e p.1 ips)) (commitInprods_sameConfig e p.1 ips)

theorem inprodStage_sameConfig (e : VectorEngine) (qreg : List Cx)
    (snaps : List (Nat × List Cx)) : sameConfig ((inprodStage e qreg snaps).1) e := by
  unfold inprodStage
  split
  · exact inprodLoop_sameConfig _ snaps e
  · exact sameConfig_refl e

theorem compute_results_sameConfig (e : VectorEngine) (regs : List Nat) (qreg : List Cx)
    (snaps : List (Nat × List Cx)) :
    sameConfig ((compute_results e regs qreg snaps).1) e := by
  unfold compute_results
  by_cases hs : snaps.isEmpty
  · simp [hs]; exact sameConfig_refl _
  · simp only [hs, Bool.false_eq_true, if_false]
    refine sameConfig_trans (inprodStage_sameConfig _ _ _) ?_
    rw [probsStage_eq, densityStage_eq, ketStage_eq]
    exact ⟨rfl, rfl, rfl, rfl, rfl, rfl, rfl, rfl, rfl⟩

/-! ### Frames and characterizations of the inner-product loop -/

theorem commitInprods_targets (e : VectorEngine) (l : Nat) (ips : List Cx) :
    (commitInprods e l ips).target_states = e.target_states := by
  simp [commitInprods_eq]

theorem commitInprods_epsilon (e : VectorEngine) (l : Nat) (ips : List Cx) :
    (commitInprods e l ips).epsilon = e.epsilon := by
  simp [commitInprods_eq]

theorem inprodLoop_ket (q : Nat) (snaps : List (Nat × List Cx)) :
    ∀ e : VectorEngine, (inprodLoop q e snaps).1.snapshots_ket = e.snapshots_ket := by
  induction snaps with
  | nil => intro e; rfl
  | cons p snaps ih =>
    intro e
    cases hcp : compute_inprods e.target_states p.2 e.epsilon q with
    | error err => simp [inprodLoop, hcp]
    | ok ips =>
      simp only [inprodLoop, hcp]
      rw [ih]
      simp [commitInprods_eq]

theorem inprodLoop_density (q : Nat) (snaps : List (Nat × List Cx)) :
    ∀ e : VectorEngine, (inprodLoop q e snaps).1.snapshots_density = e.snapshots_density := by
  induction snaps with
  | nil => intro e; rfl
  | cons p snaps ih =>
    intro e
    cases hcp : compute_inprods e.target_states p.2 e.epsilon q with
    | error err => simp [inprodLoop, hcp]
    | ok ips =>
      simp only [inprodLoop, hcp]
      rw [ih]
      simp [commitInprods_eq]

theorem inprodLoop_probs (q : Nat) (snaps : List (Nat × List Cx)) :
    ∀ e : VectorEngine, (inprodLoop q e snaps).1.snapshots_probs = e.snapshots_probs := by
  induction snaps with
  | nil => intro e; rfl
  | cons p snaps ih =>
    intro e
    cases hcp : compute_inprods e.target_states p.2 e.epsilon q with
    | error err => simp [inprodLoop, hcp]
    | ok ips =>
      simp only [inprodLoop, hcp]
      rw [ih]
      simp [commitInprods_eq]

theorem inprodLoop_probs_ket (q : Nat) (snaps : List (Nat × List Cx)) :
    ∀ e : VectorEngine,
      (inprodLoop q e snaps).1.snapshots_probs_ket = e.snapshots_probs_ket := by
  induction snaps with
  | nil => intro e; rfl
  | cons p snaps ih =>
    intro e
    cases hcp : compute_inprods e.target_states p.2 e.epsilon q with
    | error err => simp [inprodLoop, hcp]
    | ok ips =>
      simp only [inprodLoop, hcp]
      rw [ih]
      simp [commitInprods_eq]

theorem inprodLoop_inprods_off (q : Nat) (snaps : List (Nat × List Cx)) :
    ∀ e : VectorEngine, e.show_snapshots_inner_product = false →
      (inprodLoop q e snaps).1.snapshots_inprods = e.snapshots_inprods := by
  induction snaps with
  | nil => intro e _; rfl
  | cons p snaps ih =>
    intro e h
    cases hcp : compute_inprods e.target_states p.2 e.epsilon q with
    | error err => simp [inprodLoop, hcp]
    | ok ips =>
      simp only [inprodLoop, hcp]
      rw [ih _ (by simp [commitInprods_eq, h])]
      simp [commitInprods_eq, h]

theorem inprodLoop_overlaps_off (q : Nat) (snaps : List (Nat × List Cx)) :
    ∀ e : VectorEngine, e.show_snapshots_overlaps = false →
      (inprodLoop q e snaps).1.snapshots_overlaps = e.snapshots_overlaps := by
  induction snaps with
  | nil => intro e _; rfl
  | cons p snaps ih =>
    intro e h
    cases hcp : compute_inprods e.target_states p.2 e.epsilon q with
    | error err => simp [inprodLoop, hcp]
    | ok ips =>
      simp only [inprodLoop, hcp]
      rw [ih _ (by simp [commitInprods_eq, h])]
      simp [commitInprods_eq, h]

theorem inprodLoop_ok (q : Nat) {n : Nat} (snaps : List (Nat × List Cx)) :
    ∀ e : VectorEngine, (∀ t ∈ e.target_states, t.length = n) →
      (∀ p ∈ snaps, (p.2 : List Cx).length = n) →
      inprodLoop q e snaps =
        (snaps.foldl
          (fun acc p => commitInprods acc p.1 (ipsC e.target_states e.epsilon p.2)) e,
         none) := by
  induction snaps with
  | nil => intro e _ _; rfl
  | cons p snaps ih =>
    intro e ht hs
    have hp : (p.2 : List Cx).length = n := hs p (List.mem_cons_self _ _)
    have hok : compute_inprods e.target_states p.2 e.epsilon q
        = .ok (ipsC e.target_states e.epsilon p.2) :=
      compute_inprods_ok _ _ (fun t htm => (ht t htm).trans hp.symm)
    simp only [inprodLoop, hok, List.foldl_cons]
    have ih2 := ih (commitInprods e p.1 (ipsC e.target_states e.epsilon p.2))
      (by rw [commitInprods_targets]; exact ht)
      (fun p' hp' => hs p' (List.mem_cons_of_mem _ hp'))
    simp only [commitInprods_targets, commitInprods_epsilon] at ih2
    exact ih2

theorem foldCommit_inprods_on (f : List Cx → List Cx) (snaps : List (Nat × List Cx)) :
    ∀ e : VectorEngine, e.show_snapshots_inner_product = true →
      (snaps.foldl (fun acc p => commitInprods acc p.1 (f p.2)) e).snapshots_inprods
        = amerge (· ++ ·) [] e.snapshots_inprods (snaps.map (fun p => (p.1, [f p.2]))) := by
  induction snaps with
  | nil => intro e _; rfl
  | cons p snaps ih =>
    intro e h
    simp only [List.foldl_cons, List.map_cons]
    rw [ih _ (by simp [commitInprods_eq, h])]
    have hfield : (commitInprods e p.1 (f p.2)).snapshots_inprods
        = ainsert (· ++ ·) [] p.1 [f p.2] e.snapshots_inprods := by
      simp [commitInprods_eq, h]
    rw [hfield]
    rfl

theorem foldCommit_overlaps_on (f : List Cx → List Cx) (snaps : List (Nat × List Cx)) :
    ∀ e : VectorEngine, e.show_snapshots_overlaps = true →
      (snaps.foldl (fun acc p => commitInprods acc p.1 (f p.2)) e).snapshots_overlaps
        = amerge rvadd [] e.snapshots_overlaps
            (snaps.map (fun p => (p.1, get_probs_v (f p.2)))) := by
  induction snaps with
  | nil => intro e _; rfl
  | cons p snaps ih =>
    intro e h
    simp only [List.foldl_cons, List.map_cons]
    rw [ih _ (by simp [commitInprods_eq, h])]
    have hfield : (commitInprods e p.1 (f p.2)).snapshots_overlaps
        = ainsert rvadd [] p.1 (get_probs_v (f p.2)) e.snapshots_overlaps := by
      simp [commitInprods_eq, h]
    rw [hfield]
    rfl

theorem foldCommit_inprods_off (f : List Cx → List Cx) (snaps : List (Nat × List Cx)) :
    ∀ e : VectorEngine, e.show_snapshots_inner_product = false →
      (snaps.foldl (fun acc p => commitInprods acc p.1 (f p.2)) e).snapshots_inprods
        = e.snapshots_inprods := by
  induction snaps with
  | nil => intro e _; rfl
  | cons p snaps ih =>
    intro e h
    simp only [List.foldl_cons]
    rw [ih _ (by simp [commitInprods_eq, h])]
    simp [commitInprods_eq, h]

theorem foldCommit_overlaps_off (f : List Cx → List Cx) (snaps : List (Nat × List Cx)) :
    ∀ e : VectorEngine, e.show_snapshots_overlaps = false →
      (snaps.foldl (fun acc p => commitInprods acc p.1 (f p.2)) e).snapshots_overlaps
        = e.snapshots_overlaps := by
  induction snaps with
  | nil => intro e _; rfl
  | cons p snaps ih =>
    intro e h
    simp only [List.foldl_cons]
    rw [ih _ (by simp [commitInprods_eq, h])]
    simp [commitInprods_eq, h]

/-! ### Per-field characterizations of compute_results -/

theorem compute_results_eq (e : VectorEngine) (regs : List Nat) (qreg : List Cx)
    (snaps : List (Nat × List Cx)) :
    compute_results e regs qreg snaps =
      if snaps.isEmpty then ({ e with total_shots := e.total_shots + 1 }, none)
      else inprodStage (preStages e regs snaps) qreg snaps := by
  unfold compute_results preStages
  by_cases h : snaps.isEmpty <;> simp [h]

theorem preStages_target_states (e : VectorEngine) (regs : List Nat)
    (snaps : List (Nat × List Cx)) : (preStages e regs snaps).target_states = e.target_states := by
  simp [preStages, probsStage_eq, densityStage_eq, ketStage_eq]

theorem preStages_epsilon (e : VectorEngine) (regs : List Nat)
    (snaps : List (Nat × List Cx)) : (preStages e regs snaps).epsilon = e.epsilon := by
  simp [preStages, probsStage_eq, densityStage_eq, ketStage_eq]

theorem preStages_qudit_dim (e : VectorEngine) (regs : List Nat)
    (snaps : List (Nat × List Cx)) : (preStages e regs snaps).qudit_dim = e.qudit_dim := by
  simp [preStages, probsStage_eq, densityStage_eq, ketStage_eq]

theorem preStages_show_inner (e : VectorEngine) (regs : List Nat)
    (snaps : List (Nat × List Cx)) :
    (preStages e regs snaps).show_snapshots_inner_product = e.show_snapshots_inner_product := by
  simp [preStages, probsStage_eq, densityStage_eq, ketStage_eq]

theorem preStages_show_overlaps (e : VectorEngine) (regs : List Nat)
    (snaps : List (Nat × List Cx)) :
    (preStages e regs snaps).show_snapshots_overlaps = e.show_snapshots_overlaps := by
  simp [preStages, probsStage_eq, densityStage_eq, ketStage_eq]

theorem preStages_ket (e : VectorEngine) (regs : List Nat) (snaps : List (Nat × List Cx)) :
    (preStages e regs snaps).snapshots_ket =
      if e.show_snapshots_ket
      then e.snapshots_ket ++
        [snaps.map (fun p => (p.1, vec2ket p.2 e.qudit_dim e.epsilon regs))]
      else e.snapshots_ket := by
  simp [preStages, probsStage_eq, densityStage_eq, ketStage_eq]

theorem preStages_density (e : VectorEngine) (regs : List Nat)
    (snaps : List (Nat × List Cx)) :
    (preStages e regs snaps).snapshots_density =
      if e.show_snapshots_density
      then amerge gdens [] e.snapshots_density (snaps.map (fun p => (p.1, densC p.2)))
      else e.snapshots_density := by
  simp [preStages, probsStage_eq, densityStage_eq, ketStage_eq]

theorem preStages_probs (e : VectorEngine) (regs : List Nat)
    (snaps : List (Nat × List Cx)) :
    (preStages e regs snaps).snapshots_probs =
      if e.show_snapshots_probs
      then amerge rvadd [] e.snapshots_probs (snaps.map (fun p => (p.1, get_probs_v p.2)))
      else e.snapshots_probs := by
  simp [preStages, probsStage_eq, densityStage_eq, ketStage_eq]

theorem preStages_probs_ket (e : VectorEngine) (regs : List Nat)
    (snaps : List (Nat × List Cx)) :
    (preStages e regs snaps).snapshots_probs_ket =
      if e.show_snapshots_probs_ket
      then amerge rkadd rkEmpty e.snapshots_probs_ket
        ((snaps.map (fun p => (p.1, vec2ket p.2 e.qudit_dim e.epsilon regs))).map
          (fun p => (p.1, ketProbs p.2)))
      else e.snapshots_probs_ket := by
  simp [preStages, probsStage_eq, densityStage_eq, ketStage_eq]

theorem preStages_inprods (e : VectorEngine) (regs : List Nat)
    (snaps : List (Nat × List Cx)) :
    (preStages e regs snaps).snapshots_inprods = e.snapshots_inprods := by
  simp [preStages, probsStage_eq, densityStage_eq, ketStage_eq]

theorem preStages_overlaps (e : VectorEngine) (regs : List Nat)
    (snaps : List (Nat × List Cx)) :
    (preStages e regs snaps).snapshots_overlaps = e.snapshots_overlaps := by
  simp [preStages, probsStage_eq, densityStage_eq, ketStage_eq]

theorem inprodStage_ket (e : VectorEngine) (qreg : List Cx) (snaps : List (Nat × List Cx)) :
    ((inprodStage e qreg snaps).1).snapshots_ket = e.snapshots_ket := by
  unfold inprodStage
  split
  · exact inprodLoop_ket _ _ _
  · rfl

theorem inprodStage_density (e : VectorEngine) (qreg : List Cx)
    (snaps : List (Nat × List Cx)) :
    ((inprodStage e qreg snaps).1).snapshots_density = e.snapshots_density := by
  unfold inprodStage
  split
  · exact inprodLoop_density _ _ _
  · rfl

theorem inprodStage_probs (e : VectorEngine) (qreg : List Cx)
    (snaps : List (Nat × List Cx)) :
    ((inprodStage e qreg snaps).1).snapshots_probs = e.snapshots_probs := by
  unfold inprodStage
  split
  · exact inprodLoop_probs _ _ _
  · rfl

theorem inprodStage_probs_ket (e : VectorEngine) (qreg : List Cx)
    (snaps : List (Nat × List Cx)) :
    ((inprodStage e qreg snaps).1).snapshots_probs_ket = e.snapshots_probs_ket := by
  unfold inprodStage
  split
  · exact inprodLoop_probs_ket _ _ _
  · rfl

theorem compute_results_no_error {n : Nat} (e : VectorEngine) (regs : List Nat)
    (qreg : List Cx) (snaps : List (Nat × List Cx))
    (ht : ∀ t ∈ e.target_states, t.length = n)
    (hs : ∀ p ∈ snaps, (p.2 : List Cx).length = n) :
    (compute_results e regs qreg snaps).2 = none := by
  rw [compute_results_eq]
  by_cases hempty : snaps.isEmpty
  · simp [hempty]
  · simp only [hempty, Bool.false_eq_true, if_false]
    unfold inprodStage
    split
    · rw [inprodLoop_ok qreg.length snaps _
        (by rw [preStages_target_states]; exact ht) hs]
    · rfl

theorem compute_results_ket_on (e : VectorEngine) (regs : List Nat) (qreg : List Cx)
    (snaps : List (Nat × List Cx)) (h : e.show_snapshots_ket = true) :
    ((compute_results e regs qreg snaps).1).snapshots_ket
      = e.snapshots_ket ++ ketTrace e.qudit_dim e.epsilon regs [⟨qreg, snaps⟩] := by
  rw [compute_results_eq]
  by_cases hempty : snaps.isEmpty
  · obtain rfl : snaps = [] := by simpa using hempty
    simp [ketTrace]
  · have hne : snaps ≠ [] := by simpa using hempty
    simp only [hempty, Bool.false_eq_true, if_false]
    rw [inprodStage_ket, preStages_ket]
    simp [h, ketTrace, hne, ketContrib]

theorem compute_results_ket_off (e : VectorEngine) (regs : List Nat) (qreg : List Cx)
    (snaps : List (Nat × List Cx)) (h : e.show_snapshots_ket = false) :
    ((compute_results e regs qreg snaps).1).snapshots_ket = e.snapshots_ket := by
  rw [compute_results_eq]
  by_cases hempty : snaps.isEmpty
  · simp [hempty]
  · simp only [hempty, Bool.false_eq_true, if_false]
    rw [inprodStage_ket, preStages_ket]
    simp [h]

theorem compute_results_density_on (e : VectorEngine) (regs : List Nat) (qreg : List Cx)
    (snaps : List (Nat × List Cx)) (h : e.show_snapshots_density = true) :
    ((compute_results e regs qreg snaps).1).snapshots_density
      = amerge gdens [] e.snapshots_density (snaps.map (fun p => (p.1, densC p.2))) := by
  rw [compute_results_eq]
  by_cases hempty : snaps.isEmpty
  · obtain rfl : snaps = [] := by simpa using hempty
    simp [amerge]
  · simp only [hempty, Bool.false_eq_true, if_false]
    rw [inprodStage_density, preStages_density]
    simp [h]

theorem compute_results_density_off (e : VectorEngine) (regs : List Nat) (qreg : List Cx)
    (snaps : List (Nat × List Cx)) (h : e.show_snapshots_density = false) :
    ((compute_results e regs qreg snaps).1).snapshots_density = e.snapshots_density := by
  rw [compute_results_eq]
  by_cases hempty : snaps.isEmpty
  · simp [hempty]
  · simp only [hempty, Bool.false_eq_true, if_false]
    rw [inprodStage_density, preStages_density]
    simp [h]

theorem compute_results_probs_on (e : VectorEngine) (regs : List Nat) (qreg : List Cx)
    (snaps : List (Nat × List Cx)) (h : e.show_snapshots_probs = true) :
    ((compute_results e regs qreg snaps).1).snapshots_probs
      = amerge rvadd [] e.snapshots_probs (snaps.map (fun p => (p.1, get_probs_v p.2))) := by
  rw [compute_results_eq]
  by_cases hempty : snaps.isEmpty
  · obtain rfl : snaps = [] := by simpa using hempty
    simp [amerge]
  · simp only [hempty, Bool.false_eq_true, if_false]
    rw [inprodStage_probs, preStages_probs]
    simp [h]

theorem compute_results_probs_off (e : VectorEngine) (regs : List Nat) (qreg : List Cx)
    (snaps : List (Nat × List Cx)) (h : e.show_snapshots_probs = false) :
    ((compute_results e regs qreg snaps).1).snapshots_probs = e.snapshots_probs := by
  rw [compute_results_eq]
  by_cases hempty : snaps.isEmpty
  · simp [hempty]
  · simp only [hempty, Bool.false_eq_true, if_false]
    rw [inprodStage_probs, preStages_probs]
    simp [h]

theorem compute_results_probs_ket_on (e : VectorEngine) (regs : List Nat) (qreg : List Cx)
    (snaps : List (Nat × List Cx)) (h : e.show_snapshots_probs_ket = true) :
    ((compute_results e regs qreg snaps).1).snapshots_probs_ket
      = amerge rkadd rkEmpty e.snapshots_probs_ket
          ((snaps.map (fun p => (p.1, vec2ket p.2 e.qudit_dim e.epsilon regs))).map
            (fun p => (p.1, ketProbs p.2))) := by
  rw [compute_results_eq]
  by_cases hempty : snaps.isEmpty
  · obtain rfl : snaps = [] := by simpa using hempty
    simp [amerge]
  · simp only [hempty, Bool.false_eq_true, if_false]
    rw [inprodStage_probs_ket, preStages_probs_ket]
    simp [h]

theorem compute_results_probs_ket_off (e : VectorEngine) (regs : List Nat) (qreg : List Cx)
    (snaps : List (Nat × List Cx)) (h : e.show_snapshots_probs_ket = false) :
    ((compute_results e regs qreg snaps).1).snapshots_probs_ket = e.snapshots_probs_ket := by
  rw [compute_results_eq]
  by_cases hempty : snaps.isEmpty
  · simp [hempty]
  · simp only [hempty, Bool.false_eq_true, if_false]
    rw [inprodStage_probs_ket, preStages_probs_ket]
    simp [h]

theorem compute_results_inprods_on {n : Nat} (e : VectorEngine) (regs : List Nat)
    (qreg : List Cx) (snaps : List (Nat × List Cx))
    (hin : e.show_snapshots_inner_product = true) (htne : e.target_states ≠ [])
    (ht : ∀ t ∈ e.target_states, t.length = n)
    (hs : ∀ p ∈ snaps, (p.2 : List Cx).length = n) :
    ((compute_results e regs qreg snaps).1).snapshots_inprods
      = amerge (· ++ ·) [] e.snapshots_inprods
          (snaps.map (fun p => (p.1, [ipsC e.target_states e.epsilon p.2]))) := by
  rw [compute_results_eq]
  by_cases hempty : snaps.isEmpty
  · obtain rfl : snaps = [] := by simpa using hempty
    simp [amerge]
  · simp only [hempty, Bool.false_eq_true, if_false]
    unfold inprodStage
    have hguard : (!(preStages e regs snaps).target_states.isEmpty &&
        ((preStages e regs snaps).show_snapshots_inner_product ||
          (preStages e regs snaps).show_snapshots_overlaps)) = true := by
      simp [preStages_target_states, preStages_show_inner, htne, hin]
    rw [if_pos hguard]
    rw [inprodLoop_ok qreg.length snaps _
      (by rw [preStages_target_states]; exact ht) hs]
    have hfold := foldCommit_inprods_on
      (fun v => ipsC (preStages e regs snaps).target_states (preStages e regs snaps).epsilon v)
      snaps (preStages e regs snaps) (by rw [preStages_show_inner]; exact hin)
    simp only at hfold
    rw [hfold, preStages_inprods, preStages_target_states, preStages_epsilon]

theorem compute_results_inprods_off (e : VectorEngine) (regs : List Nat) (qreg : List Cx)
    (snaps : List (Nat × List Cx)) (h : e.show_snapshots_inner_product = false) :
    ((compute_results e regs qreg snaps).1).snapshots_inprods = e.snapshots_inprods := by
  rw [compute_results_eq]
  by_cases hempty : snaps.isEmpty
  · simp [hempty]
  · simp only [hempty, Bool.false_eq_true, if_false]
    unfold inprodStage
    split
    · rw [inprodLoop_inprods_off _ _ _ (by rw [preStages_show_inner]; exact h),
        preStages_inprods]
    · exact preStages_inprods e regs snaps

theorem compute_results_inprods_no_targets (e : VectorEngine) (regs : List Nat)
    (qreg : List Cx) (snaps : List (Nat × List Cx)) (h : e.target_states = []) :
    ((compute_results e regs qreg snaps).1).snapshots_inprods = e.snapshots_inprods ∧
    ((compute_results e regs qreg snaps).1).snapshots_overlaps = e.snapshots_overlaps := by
  rw [compute_results_eq]
  by_cases hempty : snaps.isEmpty
  · simp [hempty]
  · simp only [hempty, Bool.false_eq_true, if_false]
    unfold inprodStage
    have hguard : (!(preStages e regs snaps).target_states.isEmpty &&
        ((preStages e regs snaps).show_snapshots_inner_product ||
          (preStages e regs snaps).show_snapshots_overlaps)) = false := by
      simp [preStages_target_states, h]
    rw [if_neg (by rw [hguard]; exact Bool.false_ne_true)]
    exact ⟨preStages_inprods e regs snaps, preStages_overlaps e regs snaps⟩

theorem compute_results_overlaps_on {n : Nat} (e : VectorEngine) (regs : List Nat)
    (qreg : List Cx) (snaps : List (Nat × List Cx))
    (hov : e.show_snapshots_overlaps = true) (htne : e.target_states ≠ [])
    (ht : ∀ t ∈ e.target_states, t.length = n)
    (hs : ∀ p ∈ snaps, (p.2 : List Cx).length = n) :
    ((compute_results e regs qreg snaps).1).snapshots_overlaps
      = amerge rvadd [] e.snapshots_overlaps
          (snaps.map (fun p => (p.1, ovC e.target_states e.epsilon p.2))) := by
  rw [compute_results_eq]
  by_cases hempty : snaps.isEmpty
  · obtain rfl : snaps = [] := by simpa using hempty
    simp [amerge]
  · simp only [hempty, Bool.false_eq_true, if_false]
    unfold inprodStage
    have hguard : (!(preStages e regs snaps).target_states.isEmpty &&
        ((preStages e regs snaps).show_snapshots_inner_product ||
          (preStages e regs snaps).show_snapshots_overlaps)) = true := by
      simp [preStages_target_states, preStages_show_overlaps, htne, hov]
    rw [if_pos hguard]
    rw [inprodLoop_ok qreg.length snaps _
      (by rw [preStages_target_states]; exact ht) hs]
    have hfold := foldCommit_overlaps_on
      (fun v => ipsC (preStages e regs snaps).target_states (preStages e regs snaps).epsilon v)
      snaps (preStages e regs snaps) (by rw [preStages_show_overlaps]; exact hov)
    simp only at hfold
    rw [hfold, preStages_overlaps, preStages_target_states, preStages_epsilon]
    simp [ovC]

theorem compute_results_overlaps_off (e : VectorEngine) (regs : List Nat) (qreg : List Cx)
    (snaps : List (Nat × List Cx)) (h : e.show_snapshots_overlaps = false) :
    ((compute_results e regs qreg snaps).1).snapshots_overlaps = e.snapshots_overlaps := by
  rw [compute_results_eq]
  by_cases hempty : snaps.isEmpty
  · simp [hempty]
  · simp only [hempty, Bool.false_eq_true, if_false]
    unfold inprodStage
    split
    · rw [inprodLoop_overlaps_off _ _ _ (by rw [preStages_show_overlaps]; exact h),
        preStages_overlaps]
    · exact preStages_overlaps e regs snaps

/-! ### Per-field characterizations of shot sequences -/

theorem keys_map_snd {α β γ : Type} (f : β → γ) (m : List (α × β)) :
    (m.map (fun p => (p.1, f p.2))).map Prod.fst = m.map Prod.fst := by
  induction m with
  | nil => rfl
  | cons p m ih => simp [ih]

theorem keys_map_pair {α β γ : Type} (f : α × β → γ) (m : List (α × β)) :
    (m.map (fun p => (p.1, f p))).map Prod.fst = m.map Prod.fst := by
  induction m with
  | nil => rfl
  | cons p m ih => simp [ih]

theorem alookup_map_pair {α β γ : Type} [DecidableEq α] (f : α × β → γ) (m : List (α × β))
    (k : α) :
    alookup (m.map (fun p => (p.1, f p))) k = (alookup m k).map (fun v => f (k, v)) := by
  induction m with
  | nil => rfl
  | cons p m ih =>
    obtain ⟨k', v'⟩ := p
    by_cases hk : k' = k
    · subst hk
      simp [alookup]
    · simp [alookup, if_neg hk, ih]

theorem pkC_eta (dim : Nat) (eps : ℚ) (regs : List Nat) :
    pkC dim eps regs = fun v => ketProbs (vec2ket v dim eps regs) := rfl

theorem runShots_cons (e : VectorEngine) (regs : List Nat) (sh : Shot) (shots : List Shot) :
    runShots e regs (sh :: shots)
      = runShots ((compute_results e regs sh.qreg sh.snaps).1) regs shots := rfl

theorem runShots_sameConfig (regs : List Nat) (shots : List Shot) :
    ∀ e : VectorEngine, sameConfig (runShots e regs shots) e := by
  induction shots with
  | nil => intro e; exact sameConfig_refl e
  | cons sh shots ih =>
    intro e
    rw [runShots_cons]
    exact sameConfig_trans (ih _) (compute_results_sameConfig e regs sh.qreg sh.snaps)

theorem runShots_density_on (regs : List Nat) (shots : List Shot) :
    ∀ e : VectorEngine, e.show_snapshots_density = true →
      (∀ sh ∈ shots, (sh.snaps.map Prod.fst).Nodup) →
      ∀ l, alookup ((runShots e regs shots).snapshots_density) l
        = ofold gdens [] (alookup e.snapshots_density l) (contribs densC shots l) := by
  induction shots with
  | nil => intro e _ _ l; rfl
  | cons sh shots ih =>
    intro e hflag hnd l
    obtain ⟨c1, c2, c3, c4, c5, c6, c7, c8, c9⟩ :=
      compute_results_sameConfig e regs sh.qreg sh.snaps
    rw [runShots_cons]
    rw [ih _ (c4.trans hflag) (fun s hs => hnd s (List.mem_cons_of_mem _ hs)) l]
    rw [compute_results_density_on _ _ _ _ hflag]
    rw [alookup_amerge gdens [] _ _
      (by rw [keys_map_snd]; exact (hnd sh (List.mem_cons_self _ _))) l]
    rw [alookup_map_snd]
    simp [contribs, ofold_cons]

theorem runShots_density_off (regs : List Nat) (shots : List Shot) :
    ∀ e : VectorEngine, e.show_snapshots_density = false →
      (runShots e regs shots).snapshots_density = e.snapshots_density := by
  induction shots with
  | nil => intro e _; rfl
  | cons sh shots ih =>
    intro e hflag
    obtain ⟨c1, c2, c3, c4, c5, c6, c7, c8, c9⟩ :=
      compute_results_sameConfig e regs sh.qreg sh.snaps
    rw [runShots_cons, ih _ (c4.trans hflag), compute_results_density_off _ _ _ _ hflag]

theorem runShots_probs_on (regs : List Nat) (shots : List Shot) :
    ∀ e : VectorEngine, e.show_snapshots_probs = true →
      (∀ sh ∈ shots, (sh.snaps.map Prod.fst).Nodup) →
      ∀ l, alookup ((runShots e regs shots).snapshots_probs) l
        = ofold rvadd [] (alookup e.snapshots_probs l) (contribs get_probs_v shots l) := by
  induction shots with
  | nil => intro e _ _ l; rfl
  | cons sh shots ih =>
    intro e hflag hnd l
    obtain ⟨c1, c2, c3, c4, c5, c6, c7, c8, c9⟩ :=
      compute_results_sameConfig e regs sh.qreg sh.snaps
    rw [runShots_cons]
    rw [ih _ (c5.trans hflag) (fun s hs => hnd s (List.mem_cons_of_mem _ hs)) l]
    rw [compute_results_probs_on _ _ _ _ hflag]
    rw [alookup_amerge rvadd [] _ _
      (by rw [keys_map_snd]; exact (hnd sh (List.mem_cons_self _ _))) l]
    rw [alookup_map_snd]
    simp [contribs, ofold_cons]

theorem runShots_probs_off (regs : List Nat) (shots : List Shot) :
    ∀ e : VectorEngine, e.show_snapshots_probs = false →
      (runShots e regs shots).snapshots_probs = e.snapshots_probs := by
  induction shots with
  | nil => intro e _; rfl
  | cons sh shots ih =>
    intro e hflag
    obtain ⟨c1, c2, c3, c4, c5, c6, c7, c8, c9⟩ :=
      compute_results_sameConfig e regs sh.qreg sh.snaps
    rw [runShots_cons, ih _ (c5.trans hflag), compute_results_probs_off _ _ _ _ hflag]

theorem runShots_probs_ket_on (regs : List Nat) (dim : Nat) (eps : ℚ) (shots : List Shot) :
    ∀ e : VectorEngine, e.show_snapshots_probs_ket = true → e.qudit_dim = dim →
      e.epsilon = eps → (∀ sh ∈ shots, (sh.snaps.map Prod.fst).Nodup) →
      ∀ l, alookup ((runShots e regs shots).snapshots_probs_ket) l
        = ofold rkadd rkEmpty (alookup e.snapshots_probs_ket l)
            (contribs (pkC dim eps regs) shots l) := by
  induction shots with
  | nil => intro e _ _ _ _ l; rfl
  | cons sh shots ih =>
    intro e hflag hdim heps hnd l
    obtain ⟨c1, c2, c3, c4, c5, c6, c7, c8, c9⟩ :=
      compute_results_sameConfig e regs sh.qreg sh.snaps
    rw [runShots_cons]
    rw [ih _ (c6.trans hflag) (c1.trans hdim) (c2.trans heps)
      (fun s hs => hnd s (List.mem_cons_of_mem _ hs)) l]
    rw [compute_results_probs_ket_on _ _ _ _ hflag]
    rw [alookup_amerge rkadd rkEmpty _ _
      (by rw [keys_map_pair, keys_map_pair]; exact (hnd sh (List.mem_cons_self _ _))) l]
    rw [alookup_map_pair, alookup_map_pair, hdim, heps]
    simp [contribs, ofold_cons, pkC_eta, Option.map_map, Function.comp_def]

theorem runShots_probs_ket_off (regs : List Nat) (shots : List Shot) :
    ∀ e : VectorEngine, e.show_snapshots_probs_ket = false →
      (runShots e regs shots).snapshots_probs_ket = e.snapshots_probs_ket := by
  induction shots with
  | nil => intro e _; rfl
  | cons sh shots ih =>
    intro e hflag
    obtain ⟨c1, c2, c3, c4, c5, c6, c7, c8, c9⟩ :=
      compute_results_sameConfig e regs sh.qreg sh.snaps
    rw [runShots_cons, ih _ (c6.trans hflag), compute_results_probs_ket_off _ _ _ _ hflag]

theorem runShots_inprods_on (regs : List Nat) (ts : List (List Cx)) (eps : ℚ) {n : Nat}
    (shots : List Shot) :
    ∀ e : VectorEngine, e.show_snapshots_inner_product = true → e.target_states = ts →
      e.epsilon = eps → ts ≠ [] → (∀ t ∈ ts, t.length = n) →
      (∀ sh ∈ shots, Shot.wf n sh) →
      ∀ l, alookup ((runShots e regs shots).snapshots_inprods) l
        = ofold (· ++ ·) [] (alookup e.snapshots_inprods l)
            (contribs (fun v => [ipsC ts eps v]) shots l) := by
  induction shots with
  | nil => intro e _ _ _ _ _ _ l; rfl
  | cons sh shots ih =>
    intro e hflag hts heps htne htl hwf l
    obtain ⟨c1, c2, c3, c4, c5, c6, c7, c8, c9⟩ :=
      compute_results_sameConfig e regs sh.qreg sh.snaps
    rw [runShots_cons]
    rw [ih _ (c7.trans hflag) (c9.trans hts) (c2.trans heps) htne htl
      (fun s hs => hwf s (List.mem_cons_of_mem _ hs)) l]
    rw [compute_results_inprods_on (n := n) _ _ _ _ hflag (hts ▸ htne)
      (hts ▸ htl) (hwf sh (List.mem_cons_self _ _)).2]
    rw [alookup_amerge _ _ _ _
      (by rw [keys_map_pair]; exact (hwf sh (List.mem_cons_self _ _)).1) l]
    rw [alookup_map_pair, hts, heps]
    simp [contribs, ofold_cons]

theorem runShots_inprods_off (regs : List Nat) (shots : List Shot) :
    ∀ e : VectorEngine, e.show_snapshots_inner_product = false →
      (runShots e regs shots).snapshots_inprods = e.snapshots_inprods := by
  induction shots with
  | nil => intro e _; rfl
  | cons sh shots ih =>
    intro e hflag
    obtain ⟨c1, c2, c3, c4, c5, c6, c7, c8, c9⟩ :=
      compute_results_sameConfig e regs sh.qreg sh.snaps
    rw [runShots_cons, ih _ (c7.trans hflag), compute_results_inprods_off _ _ _ _ hflag]

theorem runShots_inprods_no_targets (regs : List Nat) (shots : List Shot) :
    ∀ e : VectorEngine, e.target_states = [] →
      (runShots e regs shots).snapshots_inprods = e.snapshots_inprods ∧
      (runShots e regs shots).snapshots_overlaps = e.snapshots_overlaps := by
  induction shots with
  | nil => intro e _; exact ⟨rfl, rfl⟩
  | cons sh shots ih =>
    intro e hts
    obtain ⟨c1, c2, c3, c4, c5, c6, c7, c8, c9⟩ :=
      compute_results_sameConfig e regs sh.qreg sh.snaps
    rw [runShots_cons]
    obtain ⟨ih1, ih2⟩ := ih _ (c9.trans hts)
    obtain ⟨cc1, cc2⟩ := compute_results_inprods_no_targets e regs sh.qreg sh.snaps hts
    exact ⟨ih1.trans cc1, ih2.trans cc2⟩

theorem runShots_overlaps_on (regs : List Nat) (ts : List (List Cx)) (eps : ℚ) {n : Nat}
    (shots : List Shot) :
    ∀ e : VectorEngine, e.show_snapshots_overlaps = true → e.target_states = ts →
      e.epsilon = eps → ts ≠ [] → (∀ t ∈ ts, t.length = n) →
      (∀ sh ∈ shots, Shot.wf n sh) →
      ∀ l, alookup ((runShots e regs shots).snapshots_overlaps) l
        = ofold rvadd [] (alookup e.snapshots_overlaps l)
            (contribs (ovC ts eps) shots l) := by
  induction shots with
  | nil => intro e _ _ _ _ _ _ l; rfl
  | cons sh shots ih =>
    intro e hflag hts heps htne htl hwf l
    obtain ⟨c1, c2, c3, c4, c5, c6, c7, c8, c9⟩ :=
      compute_results_sameConfig e regs sh.qreg sh.snaps
    rw [runShots_cons]
    rw [ih _ (c8.trans hflag) (c9.trans hts) (c2.trans heps) htne htl
      (fun s hs => hwf s (List.mem_cons_of_mem _ hs)) l]
    rw [compute_results_overlaps_on (n := n) _ _ _ _ hflag (hts ▸ htne)
      (hts ▸ htl) (hwf sh (List.mem_cons_self _ _)).2]
    rw [alookup_amerge _ _ _ _
      (by rw [keys_map_pair]; exact (hwf sh (List.mem_cons_self _ _)).1) l]
    rw [alookup_map_pair, hts, heps]
    simp [contribs, ofold_cons]

theorem runShots_overlaps_off (regs : List Nat) (shots : List Shot) :
    ∀ e : VectorEngine, e.show_snapshots_overlaps = false →
      (runShots e regs shots).snapshots_overlaps = e.snapshots_overlaps := by
  induction shots with
  | nil => intro e _; rfl
  | cons sh shots ih =>
    intro e hflag
    obtain ⟨c1, c2, c3, c4, c5, c6, c7, c8, c9⟩ :=
      compute_results_sameConfig e regs sh.qreg sh.snaps
    rw [runShots_cons, ih _ (c8.trans hflag), compute_results_overlaps_off _ _ _ _ hflag]

theorem ketTrace_cons (dim : Nat) (eps : ℚ) (regs : List Nat) (sh : Shot)
    (shots : List Shot) :
    ketTrace dim eps regs (sh :: shots)
      = ketTrace dim eps regs [sh] ++ ketTrace dim eps regs shots := by
  by_cases h : sh.snaps = [] <;> simp [ketTrace, h, List.filterMap_cons]

theorem runShots_ket_on (regs : List Nat) (dim : Nat) (eps : ℚ) (shots : List Shot) :
    ∀ e : VectorEngine, e.show_snapshots_ket = true → e.qudit_dim = dim →
      e.epsilon = eps →
      (runShots e regs shots).snapshots_ket
        = e.snapshots_ket ++ ketTrace dim eps regs shots := by
  induction shots with
  | nil => intro e _ _ _; simp [runShots, ketTrace]
  | cons sh shots ih =>
    intro e hflag hdim heps
    obtain ⟨c1, c2, c3, c4, c5, c6, c7, c8, c9⟩ :=
      compute_results_sameConfig e regs sh.qreg sh.snaps
    rw [runShots_cons]
    rw [ih _ (c3.trans hflag) (c1.trans hdim) (c2.trans heps)]
    rw [compute_results_ket_on _ _ _ _ hflag, hdim, heps, List.append_assoc,
      ← ketTrace_cons]

theorem runShots_ket_off (regs : List Nat) (shots : List Shot) :
    ∀ e : VectorEngine, e.show_snapshots_ket = false →
      (runShots e regs shots).snapshots_ket = e.snapshots_ket := by
  induction shots with
  | nil => intro e _; rfl
  | cons sh shots ih =>
    intro e hflag
    obtain ⟨c1, c2, c3, c4, c5, c6, c7, c8, c9⟩ :=
      compute_results_sameConfig e regs sh.qreg sh.snaps
    rw [runShots_cons, ih _ (c3.trans hflag), compute_results_ket_off _ _ _ _ hflag]

/-! ### Distinct-key invariants and merge projections -/

theorem inprodLoop_nodup_inprods (q : Nat) (snaps : List (Nat × List Cx)) :
    ∀ e : VectorEngine, ((e.snapshots_inprods.map Prod.fst).Nodup) →
      (((inprodLoop q e snaps).1).snapshots_inprods.map Prod.fst).Nodup := by
  induction snaps with
  | nil => intro e h; exact h
  | cons p snaps ih =>
    intro e h
    cases hcp : compute_inprods e.target_states p.2 e.epsilon q with
    | error err => simpa [inprodLoop, hcp] using h
    | ok ips =>
      simp only [inprodLoop, hcp]
      refine ih _ ?_
      by_cases hf : e.show_snapshots_inner_product = true
      · have : (commitInprods e p.1 ips).snapshots_inprods
            = ainsert (· ++ ·) [] p.1 [ips] e.snapshots_inprods := by
          simp [commitInprods_eq, hf]
        rw [this]
        exact nodup_keys_ainsert _ _ _ _ _ h
      · have : (commitInprods e p.1 ips).snapshots_inprods = e.snapshots_inprods := by
          simp [commitInprods_eq, hf]
        rw [this]
        exact h

theorem inprodLoop_nodup_overlaps (q : Nat) (snaps : List (Nat × List Cx)) :
    ∀ e : VectorEngine, ((e.snapshots_overlaps.map Prod.fst).Nodup) →
      (((inprodLoop q e snaps).1).snapshots_overlaps.map Prod.fst).Nodup := by
  induction snaps with
  | nil => intro e h; exact h
  | cons p snaps ih =>
    intro e h
    cases hcp : compute_inprods e.target_states p.2 e.epsilon q with
    | error err => simpa [inprodLoop, hcp] using h
    | ok ips =>
      simp only [inprodLoop, hcp]
      refine ih _ ?_
      by_cases hf : e.show_snapshots_overlaps = true
      · have : (commitInprods e p.1 ips).snapshots_overlaps
            = ainsert rvadd [] p.1 (get_probs_v ips) e.snapshots_overlaps := by
          simp [commitInprods_eq, hf]
        rw [this]
        exact nodup_keys_ainsert _ _ _ _ _ h
      · have : (commitInprods e p.1 ips).snapshots_overlaps = e.snapshots_overlaps := by
          simp [commitInprods_eq, hf]
        rw [this]
        exact h

theorem compute_results_nodup_density (e : VectorEngine) (regs : List Nat) (qreg : List Cx)
    (snaps : List (Nat × List Cx)) (h : (e.snapshots_density.map Prod.fst).Nodup) :
    ((((compute_results e regs qreg snaps).1).snapshots_density).map Prod.fst).Nodup := by
  by_cases hf : e.show_snapshots_density = true
  · rw [compute_results_density_on _ _ _ _ hf]
    exact nodup_keys_amerge _ _ _ _ h
  · rw [compute_results_density_off _ _ _ _ (Bool.not_eq_true _ ▸ hf)]
    exact h

theorem compute_results_nodup_probs (e : VectorEngine) (regs : List Nat) (qreg : List Cx)
    (snaps : List (Nat × List Cx)) (h : (e.snapshots_probs.map Prod.fst).Nodup) :
    ((((compute_results e regs qreg snaps).1).snapshots_probs).map Prod.fst).Nodup := by
  by_cases hf : e.show_snapshots_probs = true
  · rw [compute_results_probs_on _ _ _ _ hf]
    exact nodup_keys_amerge _ _ _ _ h
  · rw [compute_results_probs_off _ _ _ _ (Bool.not_eq_true _ ▸ hf)]
    exact h

theorem compute_results_nodup_probs_ket (e : VectorEngine) (regs : List Nat) (qreg : List Cx)
    (snaps : List (Nat × List Cx)) (h : (e.snapshots_probs_ket.map Prod.fst).Nodup) :
    ((((compute_results e regs qreg snaps).1).snapshots_probs_ket).map Prod.fst).Nodup := by
  by_cases hf : e.show_snapshots_probs_ket = true
  · rw [compute_results_probs_ket_on _ _ _ _ hf]
    exact nodup_keys_amerge _ _ _ _ h
  · rw [compute_results_probs_ket_off _ _ _ _ (Bool.not_eq_true _ ▸ hf)]
    exact h

theorem compute_results_nodup_inprods (e : VectorEngine) (regs : List Nat) (qreg : List Cx)
    (snaps : List (Nat × List Cx)) (h : (e.snapshots_inprods.map Prod.fst).Nodup) :
    ((((compute_results e regs qreg snaps).1).snapshots_inprods).map Prod.fst).Nodup := by
  rw [compute_results_eq]
  by_cases hempty : snaps.isEmpty
  · simpa [hempty] using h
  · simp only [hempty, Bool.false_eq_true, if_false]
    unfold inprodStage
    split
    · refine inprodLoop_nodup_inprods _ _ _ ?_
      rw [preStages_inprods]
      exact h
    · rw [preStages_inprods]
      exact h

theorem compute_results_nodup_overlaps (e : VectorEngine) (regs : List Nat) (qreg : List Cx)
    (snaps : List (Nat × List Cx)) (h : (e.snapshots_overlaps.map Prod.fst).Nodup) :
    ((((compute_results e regs qreg snaps).1).snapshots_overlaps).map Prod.fst).Nodup := by
  rw [compute_results_eq]
  by_cases hempty : snaps.isEmpty
  · simpa [hempty] using h
  · simp only [hempty, Bool.false_eq_true, if_false]
    unfold inprodStage
    split
    · refine inprodLoop_nodup_overlaps _ _ _ ?_
      rw [preStages_overlaps]
      exact h
    · rw [preStages_overlaps]
      exact h

theorem runShots_nodup_density (regs : List Nat) (shots : List Shot) :
    ∀ e : VectorEngine, (e.snapshots_density.map Prod.fst).Nodup →
      (((runShots e regs shots).snapshots_density).map Prod.fst).Nodup := by
  induction shots with
  | nil => intro e h; exact h
  | cons sh shots ih =>
    intro e h
    rw [runShots_cons]
    exact ih _ (compute_results_nodup_density e regs sh.qreg sh.snaps h)

theorem runShots_nodup_probs (regs : List Nat) (shots : List Shot) :
    ∀ e : VectorEngine, (e.snapshots_probs.map Prod.fst).Nodup →
      (((runShots e regs shots).snapshots_probs).map Prod.fst).Nodup := by
  induction shots with
  | nil => intro e h; exact h
  | cons sh shots ih =>
    intro e h
    rw [runShots_cons]
    exact ih _ (compute_results_nodup_probs e regs sh.qreg sh.snaps h)

theorem runShots_nodup_probs_ket (regs : List Nat) (shots : List Shot) :
    ∀ e : VectorEngine, (e.snapshots_probs_ket.map Prod.fst).Nodup →
      (((runShots e regs shots).snapshots_probs_ket).map Prod.fst).Nodup := by
  induction shots with
  | nil => intro e h; exact h
  | cons sh shots ih =>
    intro e h
    rw [runShots_cons]
    exact ih _ (compute_results_nodup_probs_ket e regs sh.qreg sh.snaps h)

theorem runShots_nodup_inprods (regs : List Nat) (shots : List Shot) :
    ∀ e : VectorEngine, (e.snapshots_inprods.map Prod.fst).Nodup →
      (((runShots e regs shots).snapshots_inprods).map Prod.fst).Nodup := by
  induction shots with
  | nil => intro e h; exact h
  | cons sh shots ih =>
    intro e h
    rw [runShots_cons]
    exact ih _ (compute_results_nodup_inprods e regs sh.qreg sh.snaps h)

theorem runShots_nodup_overlaps (regs : List Nat) (shots : List Shot) :
    ∀ e : VectorEngine, (e.snapshots_overlaps.map Prod.fst).Nodup →
      (((runShots e regs shots).snapshots_overlaps).map Prod.fst).Nodup := by
  induction shots with
  | nil => intro e h; exact h
  | cons sh shots ih =>
    intro e h
    rw [runShots_cons]
    exact ih _ (compute_results_nodup_overlaps e regs sh.qreg sh.snaps h)

theorem add_ket_def (a b : VectorEngine) :
    (a.add b).snapshots_ket = a.snapshots_ket ++ b.snapshots_ket := rfl

theorem add_density_def (a b : VectorEngine) :
    (a.add b).snapshots_density
      = amerge gdens [] a.snapshots_density b.snapshots_density := rfl

theorem add_probs_def (a b : VectorEngine) :
    (a.add b).snapshots_probs = amerge rvadd [] a.snapshots_probs b.snapshots_probs := rfl

theorem add_probs_ket_def (a b : VectorEngine) :
    (a.add b).snapshots_probs_ket
      = amerge rkadd rkEmpty a.snapshots_probs_ket b.snapshots_probs_ket := rfl

theorem add_inprods_def (a b : VectorEngine) :
    (a.add b).snapshots_inprods
      = amerge (· ++ ·) [] a.snapshots_inprods b.snapshots_inprods := rfl

theorem add_overlaps_def (a b : VectorEngine) :
    (a.add b).snapshots_overlaps
      = amerge rvadd [] a.snapshots_overlaps b.snapshots_overlaps := rfl

theorem perm_flatten {α : Type} {l₁ l₂ : List (List α)} (h : l₁.Perm l₂) :
    l₁.flatten.Perm l₂.flatten := by
  induction h with
  | nil => exact List.Perm.refl _
  | cons x _ ih => simpa [List.flatten_cons] using ih.append_left x
  | swap x y l =>
    simp only [List.flatten_cons]
    rw [← List.append_assoc, ← List.append_assoc]
    exact (@List.perm_append_comm _ y x).append_right _
  | trans _ _ ih1 ih2 => exact ih1.trans ih2

theorem contribs_append {V : Type} (c : List Cx → V) (xs ys : List Shot) (l : Nat) :
    contribs c (xs ++ ys) l = contribs c xs l ++ contribs c ys l := by
  simp [contribs]

theorem contribs_perm {V : Type} (c : List Cx → V) {xs ys : List Shot}
    (h : xs.Perm ys) (l : Nat) : (contribs c xs l).Perm (contribs c ys l) :=
  h.map _

theorem contribs_OptP {V : Type} (c : List Cx → V) (P : V → Prop) (shots : List Shot)
    (l : Nat) (h : ∀ sh ∈ shots, ∀ p ∈ sh.snaps, P (c (p.2 : List Cx))) :
    ∀ o ∈ contribs c shots l, OptP P o := by
  intro o ho
  simp only [contribs, List.mem_map] at ho
  obtain ⟨sh, hsh, rfl⟩ := ho
  intro v hv
  cases hlk : alookup sh.snaps l with
  | none => rw [hlk] at hv; cases hv
  | some w =>
    rw [hlk] at hv
    cases hv
    exact h sh hsh (l, w) (alookup_mem hlk)

/-! ### Merge trees: invariants -/

theorem MergeTree.run_leaf (g : List Shot) (e0 : VectorEngine) (regs : List Nat) :
    (MergeTree.leaf g).run e0 regs = runShots e0 regs g := rfl

theorem MergeTree.run_node (a b : MergeTree) (e0 : VectorEngine) (regs : List Nat) :
    (MergeTree.node a b).run e0 regs = (a.run e0 regs).add (b.run e0 regs) := rfl

theorem MergeTree.groups_leaf (g : List Shot) : (MergeTree.leaf g).groups = [g] := rfl

theorem MergeTree.groups_node (a b : MergeTree) :
    (MergeTree.node a b).groups = a.groups ++ b.groups := rfl

theorem densC_PMat {n : Nat} (hn : 0 < n) {v : List Cx} (hv : v.length = n) :
    PMat n (densC v) := by
  have hlen : (densC v).length = n := by simp [densC, outer_product, hv]
  refine ⟨hlen, List.length_pos.mp (hlen ▸ hn), ?_⟩
  intro r hr
  simp only [densC, outer_product, List.mem_map] at hr
  obtain ⟨a, _, rfl⟩ := hr
  simp [hv]

theorem get_probs_v_PVec {n : Nat} (hn : 0 < n) {v : List Cx} (hv : v.length = n) :
    PVec n (get_probs_v v) := by
  have hlen : (get_probs_v v).length = n := by simp [get_probs_v, hv]
  exact ⟨hlen, List.length_pos.mp (hlen ▸ hn)⟩

theorem ipsC_length (ts : List (List Cx)) (eps : ℚ) (v : List Cx) :
    (ipsC ts eps v).length = ts.length := by simp [ipsC]

theorem ovC_PVec {ts : List (List Cx)} (htne : ts ≠ []) (eps : ℚ) (v : List Cx) :
    PVec ts.length (ovC ts eps v) := by
  have hlen : (ovC ts eps v).length = ts.length := by simp [ovC, get_probs_v, ipsC]
  refine ⟨hlen, List.length_pos.mp (hlen ▸ List.length_pos.mpr htne)⟩

theorem treeRun_density_off (regs : List Nat) (t : MergeTree) (e0 : VectorEngine)
    (hflag : e0.show_snapshots_density = false) (hfresh : e0.snapshots_density = []) :
    (t.run e0 regs).snapshots_density = [] := by
  induction t with
  | leaf g => rw [MergeTree.run_leaf, runShots_density_off regs g e0 hflag, hfresh]
  | node a b iha ihb =>
    rw [MergeTree.run_node, add_density_def, iha, ihb]
    rfl

theorem treeRun_probs_off (regs : List Nat) (t : MergeTree) (e0 : VectorEngine)
    (hflag : e0.show_snapshots_probs = false) (hfresh : e0.snapshots_probs = []) :
    (t.run e0 regs).snapshots_probs = [] := by
  induction t with
  | leaf g => rw [MergeTree.run_leaf, runShots_probs_off regs g e0 hflag, hfresh]
  | node a b iha ihb =>
    rw [MergeTree.run_node, add_probs_def, iha, ihb]
    rfl

theorem treeRun_probs_ket_off (regs : List Nat) (t : MergeTree) (e0 : VectorEngine)
    (hflag : e0.show_snapshots_probs_ket = false) (hfresh : e0.snapshots_probs_ket = []) :
    (t.run e0 regs).snapshots_probs_ket = [] := by
  induction t with
  | leaf g => rw [MergeTree.run_leaf, runShots_probs_ket_off regs g e0 hflag, hfresh]
  | node a b iha ihb =>
    rw [MergeTree.run_node, add_probs_ket_def, iha, ihb]
    rfl

theorem treeRun_overlaps_off (regs : List Nat) (t : MergeTree) (e0 : VectorEngine)
    (hflag : e0.show_snapshots_overlaps = false) (hfresh : e0.snapshots_overlaps = []) :
    (t.run e0 regs).snapshots_overlaps = [] := by
  induction t with
  | leaf g => rw [MergeTree.run_leaf, runShots_overlaps_off regs g e0 hflag, hfresh]
  | node a b iha ihb =>
    rw [MergeTree.run_node, add_overlaps_def, iha, ihb]
    rfl

theorem treeRun_inprods_off (regs : List Nat) (t : MergeTree) (e0 : VectorEngine)
    (hflag : e0.show_snapshots_inner_product = false) (hfresh : e0.snapshots_inprods = []) :
    (t.run e0 regs).snapshots_inprods = [] := by
  induction t with
  | leaf g => rw [MergeTree.run_leaf, runShots_inprods_off regs g e0 hflag, hfresh]
  | node a b iha ihb =>
    rw [MergeTree.run_node, add_inprods_def, iha, ihb]
    rfl

theorem treeRun_no_targets (regs : List Nat) (t : MergeTree) (e0 : VectorEngine)
    (hts : e0.target_states = []) (hfin : e0.snapshots_inprods = [])
    (hfov : e0.snapshots_overlaps = []) :
    (t.run e0 regs).snapshots_inprods = [] ∧ (t.run e0 regs).snapshots_overlaps = [] := by
  induction t with
  | leaf g =>
    obtain ⟨h1, h2⟩ := runShots_inprods_no_targets regs g e0 hts
    rw [MergeTree.run_leaf]
    exact ⟨h1.trans hfin, h2.trans hfov⟩
  | node a b iha ihb =>
    rw [MergeTree.run_node, add_inprods_def, add_overlaps_def, iha.1, ihb.1, iha.2, ihb.2]
    exact ⟨rfl, rfl⟩

theorem treeRun_nodup_density (regs : List Nat) (t : MergeTree) (e0 : VectorEngine)
    (hfresh : e0.snapshots_density = []) :
    (((t.run e0 regs).snapshots_density).map Prod.fst).Nodup := by
  induction t with
  | leaf g =>
    rw [MergeTree.run_leaf]
    exact runShots_nodup_density regs g e0 (by rw [hfresh]; exact List.nodup_nil)
  | node a b iha ihb =>
    rw [MergeTree.run_node, add_density_def]
    exact nodup_keys_amerge _ _ _ _ iha

theorem treeRun_nodup_probs (regs : List Nat) (t : MergeTree) (e0 : VectorEngine)
    (hfresh : e0.snapshots_probs = []) :
    (((t.run e0 regs).snapshots_probs).map Prod.fst).Nodup := by
  induction t with
  | leaf g =>
    rw [MergeTree.run_leaf]
    exact runShots_nodup_probs regs g e0 (by rw [hfresh]; exact List.nodup_nil)
  | node a b iha ihb =>
    rw [MergeTree.run_node, add_probs_def]
    exact nodup_keys_amerge _ _ _ _ iha

theorem treeRun_nodup_probs_ket (regs : List Nat) (t : MergeTree) (e0 : VectorEngine)
    (hfresh : e0.snapshots_probs_ket = []) :
    (((t.run e0 regs).snapshots_probs_ket).map Prod.fst).Nodup := by
  induction t with
  | leaf g =>
    rw [MergeTree.run_leaf]
    exact runShots_nodup_probs_ket regs g e0 (by rw [hfresh]; exact List.nodup_nil)
  | node a b iha ihb =>
    rw [MergeTree.run_node, add_probs_ket_def]
    exact nodup_keys_amerge _ _ _ _ iha

theorem treeRun_nodup_inprods (regs : List Nat) (t : MergeTree) (e0 : VectorEngine)
    (hfresh : e0.snapshots_inprods = []) :
    (((t.run e0 regs).snapshots_inprods).map Prod.fst).Nodup := by
  induction t with
  | leaf g =>
    rw [MergeTree.run_leaf]
    exact runShots_nodup_inprods regs g e0 (by rw [hfresh]; exact List.nodup_nil)
  | node a b iha ihb =>
    rw [MergeTree.run_node, add_inprods_def]
    exact nodup_keys_amerge _ _ _ _ iha

theorem treeRun_nodup_overlaps (regs : List Nat) (t : MergeTree) (e0 : VectorEngine)
    (hfresh : e0.snapshots_overlaps = []) :
    (((t.run e0 regs).snapshots_overlaps).map Prod.fst).Nodup := by
  induction t with
  | leaf g =>
    rw [MergeTree.run_leaf]
    exact runShots_nodup_overlaps regs g e0 (by rw [hfresh]; exact List.nodup_nil)
  | node a b iha ihb =>
    rw [MergeTree.run_node, add_overlaps_def]
    exact nodup_keys_amerge _ _ _ _ iha

/-! ### Merge trees: per-label sums -/

theorem treeRun_density (regs : List Nat) {n : Nat} (hn : 0 < n) (t : MergeTree)
    (e0 : VectorEngine) (hflag : e0.show_snapshots_density = true)
    (hfresh : e0.snapshots_density = []) :
    (∀ sh ∈ t.groups.flatten, Shot.wf n sh) →
    ∀ l, alookup ((t.run e0 regs).snapshots_density) l
      = ofold gdens [] none (contribs densC t.groups.flatten l) := by
  induction t with
  | leaf g =>
    intro hwf l
    rw [MergeTree.run_leaf, runShots_density_on regs g e0 hflag
      (fun sh hs => (hwf sh (by simpa [MergeTree.groups] using hs)).1) l, hfresh]
    simp [MergeTree.groups, alookup]
  | node a b iha ihb =>
    intro hwf l
    have hwfa : ∀ sh ∈ a.groups.flatten, Shot.wf n sh := fun sh hs =>
      hwf sh (by rw [MergeTree.groups_node, List.flatten_append]
                 exact List.mem_append_left _ hs)
    have hwfb : ∀ sh ∈ b.groups.flatten, Shot.wf n sh := fun sh hs =>
      hwf sh (by rw [MergeTree.groups_node, List.flatten_append]
                 exact List.mem_append_right _ hs)
    have hOA : ∀ o ∈ contribs densC a.groups.flatten l, OptP (PMat n) o :=
      contribs_OptP _ _ _ _ (fun sh hs p hp => densC_PMat hn ((hwfa sh hs).2 p hp))
    have hOB : ∀ o ∈ contribs densC b.groups.flatten l, OptP (PMat n) o :=
      contribs_OptP _ _ _ _ (fun sh hs p hp => densC_PMat hn ((hwfb sh hs).2 p hp))
    rw [MergeTree.run_node, add_density_def,
      alookup_amerge _ _ _ _ (treeRun_nodup_density regs b e0 hfresh) l,
      iha hwfa l, ihb hwfb l]
    rw [ofold_none_eq (fun v _ => gdens_nil_left v)
      (fun x y z hx hy hz => gdens_assocP hx hy hz)
      (fun x y hx hy => PMat_gdens hx hy)
      (OptP_ofold (fun v _ => gdens_nil_left v) (fun x y hx hy => PMat_gdens hx hy)
        (OptP_none _) hOA) hOB]
    rw [← ofold_append, ← contribs_append, MergeTree.groups_node, List.flatten_append]

theorem treeRun_probs (regs : List Nat) {n : Nat} (hn : 0 < n) (t : MergeTree)
    (e0 : VectorEngine) (hflag : e0.show_snapshots_probs = true)
    (hfresh : e0.snapshots_probs = []) :
    (∀ sh ∈ t.groups.flatten, Shot.wf n sh) →
    ∀ l, alookup ((t.run e0 regs).snapshots_probs) l
      = ofold rvadd [] none (contribs get_probs_v t.groups.flatten l) := by
  induction t with
  | leaf g =>
    intro hwf l
    rw [MergeTree.run_leaf, runShots_probs_on regs g e0 hflag
      (fun sh hs => (hwf sh (by simpa [MergeTree.groups] using hs)).1) l, hfresh]
    simp [MergeTree.groups, alookup]
  | node a b iha ihb =>
    intro hwf l
    have hwfa : ∀ sh ∈ a.groups.flatten, Shot.wf n sh := fun sh hs =>
      hwf sh (by rw [MergeTree.groups_node, List.flatten_append]
                 exact List.mem_append_left _ hs)
    have hwfb : ∀ sh ∈ b.groups.flatten, Shot.wf n sh := fun sh hs =>
      hwf sh (by rw [MergeTree.groups_node, List.flatten_append]
                 exact List.mem_append_right _ hs)
    have hOA : ∀ o ∈ contribs get_probs_v a.groups.flatten l, OptP (PVec n) o :=
      contribs_OptP _ _ _ _ (fun sh hs p hp => get_probs_v_PVec hn ((hwfa sh hs).2 p hp))
    have hOB : ∀ o ∈ contribs get_probs_v b.groups.flatten l, OptP (PVec n) o :=
      contribs_OptP _ _ _ _ (fun sh hs p hp => get_probs_v_PVec hn ((hwfb sh hs).2 p hp))
    rw [MergeTree.run_node, add_probs_def,
      alookup_amerge _ _ _ _ (treeRun_nodup_probs regs b e0 hfresh) l,
      iha hwfa l, ihb hwfb l]
    rw [ofold_none_eq (fun v _ => rvadd_nil_left v)
      (fun x y z hx hy hz => rvadd_assocP hx hy hz)
      (fun x y hx hy => PVec_rvadd hx hy)
      (OptP_ofold (fun v _ => rvadd_nil_left v) (fun x y hx hy => PVec_rvadd hx hy)
        (OptP_none _) hOA) hOB]
    rw [← ofold_append, ← contribs_append, MergeTree.groups_node, List.flatten_append]

theorem treeRun_probs_ket (regs : List Nat) (dim : Nat) (eps : ℚ) (t : MergeTree)
    (e0 : VectorEngine) (hflag : e0.show_snapshots_probs_ket = true)
    (hdim : e0.qudit_dim = dim) (heps : e0.epsilon = eps)
    (hfresh : e0.snapshots_probs_ket = []) :
    (∀ sh ∈ t.groups.flatten, (sh.snaps.map Prod.fst).Nodup) →
    ∀ l, alookup ((t.run e0 regs).snapshots_probs_ket) l
      = ofold rkadd rkEmpty none (contribs (pkC dim eps regs) t.groups.flatten l) := by
  induction t with
  | leaf g =>
    intro hwf l
    rw [MergeTree.run_leaf, runShots_probs_ket_on regs dim eps g e0 hflag hdim heps
      (fun sh hs => hwf sh (by simpa [MergeTree.groups] using hs)) l, hfresh]
    simp [MergeTree.groups, alookup]
  | node a b iha ihb =>
    intro hwf l
    have hwfa : ∀ sh ∈ a.groups.flatten, (sh.snaps.map Prod.fst).Nodup := fun sh hs =>
      hwf sh (by rw [MergeTree.groups_node, List.flatten_append]
                 exact List.mem_append_left _ hs)
    have hwfb : ∀ sh ∈ b.groups.flatten, (sh.snaps.map Prod.fst).Nodup := fun sh hs =>
      hwf sh (by rw [MergeTree.groups_node, List.flatten_append]
                 exact List.mem_append_right _ hs)
    have hOA : ∀ o ∈ contribs (pkC dim eps regs) a.groups.flatten l,
        OptP (fun _ : RKet => True) o := fun o _ v _ => trivial
    have hOB : ∀ o ∈ contribs (pkC dim eps regs) b.groups.flatten l,
        OptP (fun _ : RKet => True) o := fun o _ v _ => trivial
    rw [MergeTree.run_node, add_probs_ket_def,
      alookup_amerge _ _ _ _ (treeRun_nodup_probs_ket regs b e0 hfresh) l,
      iha hwfa l, ihb hwfb l]
    rw [ofold_none_eq (P := fun _ : RKet => True) (fun v _ => rkadd_empty_left v)
      (fun x y z _ _ _ => rkadd_assoc x y z)
      (fun _ _ _ _ => trivial)
      (OptP_ofold (P := fun _ : RKet => True) (fun v _ => rkadd_empty_left v)
        (fun _ _ _ _ => trivial) (OptP_none _) hOA) hOB]
    rw [← ofold_append, ← contribs_append, MergeTree.groups_node, List.flatten_append]

theorem treeRun_overlaps (regs : List Nat) (ts : List (List Cx)) (eps : ℚ) {n : Nat}
    (t : MergeTree) (e0 : VectorEngine) (hflag : e0.show_snapshots_overlaps = true)
    (hts : e0.target_states = ts) (heps : e0.epsilon = eps) (htne : ts ≠ [])
    (htl : ∀ tv ∈ ts, tv.length = n) (hfresh : e0.snapshots_overlaps = []) :
    (∀ sh ∈ t.groups.flatten, Shot.wf n sh) →
    ∀ l, alookup ((t.run e0 regs).snapshots_overlaps) l
      = ofold rvadd [] none (contribs (ovC ts eps) t.groups.flatten l) := by
  induction t with
  | leaf g =>
    intro hwf l
    rw [MergeTree.run_leaf, runShots_overlaps_on regs ts eps g e0 hflag hts heps htne htl
      (fun sh hs => hwf sh (by simpa [MergeTree.groups] using hs)) l, hfresh]
    simp [MergeTree.groups, alookup]
  | node a b iha ihb =>
    intro hwf l
    have hwfa : ∀ sh ∈ a.groups.flatten, Shot.wf n sh := fun sh hs =>
      hwf sh (by rw [MergeTree.groups_node, List.flatten_append]
                 exact List.mem_append_left _ hs)
    have hwfb : ∀ sh ∈ b.groups.flatten, Shot.wf n sh := fun sh hs =>
      hwf sh (by rw [MergeTree.groups_node, List.flatten_append]
                 exact List.mem_append_right _ hs)
    have hOA : ∀ o ∈ contribs (ovC ts eps) a.groups.flatten l, OptP (PVec ts.length) o :=
      contribs_OptP _ _ _ _ (fun sh hs p hp => ovC_PVec htne eps _)
    have hOB : ∀ o ∈ contribs (ovC ts eps) b.groups.flatten l, OptP (PVec ts.length) o :=
      contribs_OptP _ _ _ _ (fun sh hs p hp => ovC_PVec htne eps _)
    rw [MergeTree.run_node, add_overlaps_def,
      alookup_amerge _ _ _ _ (treeRun_nodup_overlaps regs b e0 hfresh) l,
      iha hwfa l, ihb hwfb l]
    rw [ofold_none_eq (fun v _ => rvadd_nil_left v)
      (fun x y z hx hy hz => rvadd_assocP hx hy hz)
      (fun x y hx hy => PVec_rvadd hx hy)
      (OptP_ofold (fun v _ => rvadd_nil_left v) (fun x y hx hy => PVec_rvadd hx hy)
        (OptP_none _) hOA) hOB]
    rw [← ofold_append, ← contribs_append, MergeTree.groups_node, List.flatten_append]

/-! ### Permutation invariance of the per-label folds -/

theorem ofold_perm_gdens {n : Nat} {os os' : List (Option (List (List Cx)))}
    (h : os.Perm os') (hos : ∀ o ∈ os, OptP (PMat n) o) :
    ofold gdens [] none os = ofold gdens [] none os' :=
  ofold_perm (fun v _ => gdens_nil_left v)
    (fun x y z hx hy hz => gdens_assocP hx hy hz)
    (fun x y hx hy => gdens_commP hx hy)
    (fun x y hx hy => PMat_gdens hx hy) h hos (OptP_none _)

theorem ofold_perm_rvadd {n : Nat} {os os' : List (Option (List ℚ))}
    (h : os.Perm os') (hos : ∀ o ∈ os, OptP (PVec n) o) :
    ofold rvadd [] none os = ofold rvadd [] none os' :=
  ofold_perm (fun v _ => rvadd_nil_left v)
    (fun x y z hx hy hz => rvadd_assocP hx hy hz)
    (fun x y hx hy => rvadd_commP hx hy)
    (fun x y hx hy => PVec_rvadd hx hy) h hos (OptP_none _)

theorem ofold_perm_rkadd {os os' : List (Option RKet)} (h : os.Perm os')
    (hos : ∀ o ∈ os, OptP (fun _ : RKet => True) o) :
    ofold rkadd rkEmpty none os = ofold rkadd rkEmpty none os' :=
  ofold_perm (P := fun _ : RKet => True) (fun v _ => rkadd_empty_left v)
    (fun x y z _ _ _ => rkadd_assoc x y z)
    (fun x y _ _ => rkadd_comm x y)
    (fun _ _ _ _ => trivial) h hos (OptP_none _)

/-! ### Partition invariance, field by field -/

theorem partition_density (e0 : VectorEngine) (regs : List Nat) {n : Nat}
    (t : MergeTree) (groups : List (List Shot)) (hn : 0 < n) (hfresh : e0.freshAcc)
    (hperm : t.groups.Perm groups) (hwf : ∀ sh ∈ groups.flatten, Shot.wf n sh)
    (l : Nat) :
    alookup ((t.run e0 regs).snapshots_density) l
      = alookup ((runShots e0 regs groups.flatten).snapshots_density) l := by
  have hpf : (t.groups.flatten).Perm groups.flatten := perm_flatten hperm
  have hwft : ∀ sh ∈ t.groups.flatten, Shot.wf n sh := fun sh hs =>
    hwf sh (hpf.mem_iff.mp hs)
  by_cases hflag : e0.show_snapshots_density = true
  · rw [treeRun_density regs hn t e0 hflag hfresh.2.1 hwft l]
    rw [runShots_density_on regs groups.flatten e0 hflag (fun sh hs => (hwf sh hs).1) l,
      hfresh.2.1]
    exact ofold_perm_gdens (contribs_perm densC hpf l)
      (contribs_OptP _ _ _ _ (fun sh hs p hp => densC_PMat hn ((hwft sh hs).2 p hp)))
  · have hflag' : e0.show_snapshots_density = false := Bool.not_eq_true _ ▸ hflag
    rw [treeRun_density_off regs t e0 hflag' hfresh.2.1,
      runShots_density_off regs groups.flatten e0 hflag', hfresh.2.1]

theorem partition_probs (e0 : VectorEngine) (regs : List Nat) {n : Nat}
    (t : MergeTree) (groups : List (List Shot)) (hn : 0 < n) (hfresh : e0.freshAcc)
    (hperm : t.groups.Perm groups) (hwf : ∀ sh ∈ groups.flatten, Shot.wf n sh)
    (l : Nat) :
    alookup ((t.run e0 regs).snapshots_probs) l
      = alookup ((runShots e0 regs groups.flatten).snapshots_probs) l := by
  have hpf : (t.groups.flatten).Perm groups.flatten := perm_flatten hperm
  have hwft : ∀ sh ∈ t.groups.flatten, Shot.wf n sh := fun sh hs =>
    hwf sh (hpf.mem_iff.mp hs)
  by_cases hflag : e0.show_snapshots_probs = true
  · rw [treeRun_probs regs hn t e0 hflag hfresh.2.2.1 hwft l]
    rw [runShots_probs_on regs groups.flatten e0 hflag (fun sh hs => (hwf sh hs).1) l,
      hfresh.2.2.1]
    exact ofold_perm_rvadd (contribs_perm get_probs_v hpf l)
      (contribs_OptP _ _ _ _ (fun sh hs p hp => get_probs_v_PVec hn ((hwft sh hs).2 p hp)))
  · have hflag' : e0.show_snapshots_probs = false := Bool.not_eq_true _ ▸ hflag
    rw [treeRun_probs_off regs t e0 hflag' hfresh.2.2.1,
      runShots_probs_off regs groups.flatten e0 hflag', hfresh.2.2.1]

theorem partition_probs_ket (e0 : VectorEngine) (regs : List Nat) {n : Nat}
    (t : MergeTree) (groups : List (List Shot)) (hfresh : e0.freshAcc)
    (hperm : t.groups.Perm groups) (hwf : ∀ sh ∈ groups.flatten, Shot.wf n sh)
    (l : Nat) :
    alookup ((t.run e0 regs).snapshots_probs_ket) l
      = alookup ((runShots e0 regs groups.flatten).snapshots_probs_ket) l := by
  have hpf : (t.groups.flatten).Perm groups.flatten := perm_flatten hperm
  have hwft : ∀ sh ∈ t.groups.flatten, Shot.wf n sh := fun sh hs =>
    hwf sh (hpf.mem_iff.mp hs)
  by_cases hflag : e0.show_snapshots_probs_ket = true
  · rw [treeRun_probs_ket regs e0.qudit_dim e0.epsilon t e0 hflag rfl rfl hfresh.2.2.2.1
      (fun sh hs => (hwft sh hs).1) l]
    rw [runShots_probs_ket_on regs e0.qudit_dim e0.epsilon groups.flatten e0 hflag rfl rfl
      (fun sh hs => (hwf sh hs).1) l, hfresh.2.2.2.1]
    exact ofold_perm_rkadd (contribs_perm _ hpf l) (fun o _ v _ => trivial)
  · have hflag' : e0.show_snapshots_probs_ket = false := Bool.not_eq_true _ ▸ hflag
    rw [treeRun_probs_ket_off regs t e0 hflag' hfresh.2.2.2.1,
      runShots_probs_ket_off regs groups.flatten e0 hflag', hfresh.2.2.2.1]

theorem partition_overlaps (e0 : VectorEngine) (regs : List Nat) {n : Nat}
    (t : MergeTree) (groups : List (List Shot)) (hfresh : e0.freshAcc)
    (htl : ∀ tv ∈ e0.target_states, tv.length = n)
    (hperm : t.groups.Perm groups) (hwf : ∀ sh ∈ groups.flatten, Shot.wf n sh)
    (l : Nat) :
    alookup ((t.run e0 regs).snapshots_overlaps) l
      = alookup ((runShots e0 regs groups.flatten).snapshots_overlaps) l := by
  have hpf : (t.groups.flatten).Perm groups.flatten := perm_flatten hperm
  have hwft : ∀ sh ∈ t.groups.flatten, Shot.wf n sh := fun sh hs =>
    hwf sh (hpf.mem_iff.mp hs)
  by_cases hflag : e0.show_snapshots_overlaps = true
  · by_cases htne : e0.target_states = []
    · rw [(treeRun_no_targets regs t e0 htne hfresh.2.2.2.2.1 hfresh.2.2.2.2.2).2,
        (runShots_inprods_no_targets regs groups.flatten e0 htne).2, hfresh.2.2.2.2.2]
    · rw [treeRun_overlaps regs e0.target_states e0.epsilon t e0 hflag rfl rfl htne htl
        hfresh.2.2.2.2.2 hwft l]
      rw [runShots_overlaps_on regs e0.target_states e0.epsilon groups.flatten e0 hflag
        rfl rfl htne htl hwf l, hfresh.2.2.2.2.2]
      exact ofold_perm_rvadd (contribs_perm _ hpf l)
        (contribs_OptP _ _ _ _ (fun sh hs p hp => ovC_PVec htne e0.epsilon _))
  · have hflag' : e0.show_snapshots_overlaps = false := Bool.not_eq_true _ ▸ hflag
    rw [treeRun_overlaps_off regs t e0 hflag' hfresh.2.2.2.2.2,
      runShots_overlaps_off regs groups.flatten e0 hflag', hfresh.2.2.2.2.2]

/-! ### Claim C1 -/

/-- C1: Merge partition-invariance.  For every configuration, every sequence
of shots presented as a partition into groups, and every grouping and order
of pairwise merges of the per-group accumulators (a merge tree whose leaf
groups are a permutation of the partition), the per-label density sums,
probability sums, probability-ket sums and overlap sums of the merged
accumulator are identical to those obtained by accumulating all shots into
a single accumulator directly. -/
theorem C1_merge_partition_invariance (e0 : VectorEngine) (regs : List Nat) (n : Nat)
    (t : MergeTree) (groups : List (List Shot)) (hn : 0 < n) (hfresh : e0.freshAcc)
    (htl : ∀ tv ∈ e0.target_states, tv.length = n)
    (hperm : t.groups.Perm groups)
    (hwf : ∀ sh ∈ groups.flatten, Shot.wf n sh) (l : Nat) :
    alookup ((t.run e0 regs).snapshots_density) l
      = alookup ((runShots e0 regs groups.flatten).snapshots_density) l ∧
    alookup ((t.run e0 regs).snapshots_probs) l
      = alookup ((runShots e0 regs groups.flatten).snapshots_probs) l ∧
    alookup ((t.run e0 regs).snapshots_probs_ket) l
      = alookup ((runShots e0 regs groups.flatten).snapshots_probs_ket) l ∧
    alookup ((t.run e0 regs).snapshots_overlaps) l
      = alookup ((runShots e0 regs groups.flatten).snapshots_overlaps) l :=
  ⟨partition_density e0 regs t groups hn hfresh hperm hwf l,
   partition_probs e0 regs t groups hn hfresh hperm hwf l,
   partition_probs_ket e0 regs t groups hfresh hperm hwf l,
   partition_overlaps e0 regs t groups hfresh htl hperm hwf l⟩

/-- C1 witness: the partition-invariance theorem applied to a concrete
two-shot, two-group instance, with every hypothesis discharged by
evaluation. -/
theorem C1_merge_partition_invariance_witness :
    (0 < 1 ∧ c1Engine.freshAcc ∧ (∀ sh ∈ c1Groups.flatten, Shot.wf 1 sh)) ∧
    (alookup ((c1Tree.run c1Engine []).snapshots_density) 0
      = alookup ((runShots c1Engine [] c1Groups.flatten).snapshots_density) 0 ∧
    alookup ((c1Tree.run c1Engine []).snapshots_probs) 0
      = alookup ((runShots c1Engine [] c1Groups.flatten).snapshots_probs) 0 ∧
    alookup ((c1Tree.run c1Engine []).snapshots_probs_ket) 0
      = alookup ((runShots c1Engine [] c1Groups.flatten).snapshots_probs_ket) 0 ∧
    alookup ((c1Tree.run c1Engine []).snapshots_overlaps) 0
      = alookup ((runShots c1Engine [] c1Groups.flatten).snapshots_overlaps) 0) :=
  ⟨⟨by decide, ⟨rfl, rfl, rfl, rfl, rfl, rfl⟩, by decide⟩,
   C1_merge_partition_invariance c1Engine [] 1 c1Tree c1Groups (by decide)
     ⟨rfl, rfl, rfl, rfl, rfl, rfl⟩ (by decide) (List.Perm.refl _) (by decide) 0⟩

/-! ### Merge trees: ordered list fields -/

theorem oacc_append_getD {α : Type} (x y : Option (List α)) :
    (oacc (· ++ ·) [] x y).getD [] = x.getD [] ++ y.getD [] := by
  cases y <;> simp [oacc]

theorem ketTrace_append (dim : Nat) (eps : ℚ) (regs : List Nat) (xs ys : List Shot) :
    ketTrace dim eps regs (xs ++ ys)
      = ketTrace dim eps regs xs ++ ketTrace dim eps regs ys := by
  simp [ketTrace, List.filterMap_append]

theorem ketTrace_flatten (dim : Nat) (eps : ℚ) (regs : List Nat)
    (gs : List (List Shot)) :
    ketTrace dim eps regs gs.flatten = (gs.map (ketTrace dim eps regs)).flatten := by
  induction gs with
  | nil => rfl
  | cons g gs ih => simp [List.flatten_cons, ketTrace_append, ih]

theorem flatten_const_nil {α β : Type} (l : List α) :
    (l.map (fun _ => ([] : List β))).flatten = [] := by
  induction l with
  | nil => rfl
  | cons x l ih => simp [ih]

theorem treeRun_ket_on (regs : List Nat) (dim : Nat) (eps : ℚ) (t : MergeTree)
    (e0 : VectorEngine) (hflag : e0.show_snapshots_ket = true)
    (hdim : e0.qudit_dim = dim) (heps : e0.epsilon = eps)
    (hfresh : e0.snapshots_ket = []) :
    (t.run e0 regs).snapshots_ket = ketTrace dim eps regs t.groups.flatten := by
  induction t with
  | leaf g =>
    rw [MergeTree.run_leaf, runShots_ket_on regs dim eps g e0 hflag hdim heps, hfresh]
    simp [MergeTree.groups]
  | node a b iha ihb =>
    rw [MergeTree.run_node, add_ket_def, iha, ihb, MergeTree.groups_node,
      List.flatten_append, ketTrace_append]

theorem treeRun_ket_off (regs : List Nat) (t : MergeTree) (e0 : VectorEngine)
    (hflag : e0.show_snapshots_ket = false) (hfresh : e0.snapshots_ket = []) :
    (t.run e0 regs).snapshots_ket = [] := by
  induction t with
  | leaf g => rw [MergeTree.run_leaf, runShots_ket_off regs g e0 hflag, hfresh]
  | node a b iha ihb =>
    rw [MergeTree.run_node, add_ket_def, iha, ihb]
    rfl

theorem tree_inprods_concat (regs : List Nat) (t : MergeTree) (e0 : VectorEngine)
    (hfresh : e0.snapshots_inprods = []) :
    ∀ l, (alookup ((t.run e0 regs).snapshots_inprods) l).getD []
      = (t.groups.map (fun g =>
          (alookup ((runShots e0 regs g).snapshots_inprods) l).getD [])).flatten := by
  induction t with
  | leaf g =>
    intro l
    simp [MergeTree.run_leaf, MergeTree.groups_leaf]
  | node a b iha ihb =>
    intro l
    rw [MergeTree.run_node, add_inprods_def,
      alookup_amerge _ _ _ _ (treeRun_nodup_inprods regs b e0 hfresh) l,
      oacc_append_getD, iha l, ihb l, MergeTree.groups_node, List.map_append,
      List.flatten_append]

/-! ### Claim C5 -/

/-- C5: Order preservation under merge.  For every merge tree over
consecutive groups of a shot sequence, the ket-snapshot list of the merged
accumulator is the concatenation, in original shot order, of the per-group
ket-snapshot lists, and, per label, the merged inner-product list is the
concatenation of the per-group inner-product lists — regardless of how the
merges are grouped. -/
theorem C5_merge_order_preservation (e0 : VectorEngine) (regs : List Nat) (n : Nat)
    (t : MergeTree) (hfresh : e0.freshAcc)
    (htl : ∀ tv ∈ e0.target_states, tv.length = n)
    (hwf : ∀ sh ∈ t.groups.flatten, Shot.wf n sh) :
    ((t.run e0 regs).snapshots_ket
      = (t.groups.map (fun g => (runShots e0 regs g).snapshots_ket)).flatten) ∧
    ∀ l, (alookup ((t.run e0 regs).snapshots_inprods) l).getD []
      = (t.groups.map (fun g =>
          (alookup ((runShots e0 regs g).snapshots_inprods) l).getD [])).flatten := by
  constructor
  · by_cases hflag : e0.show_snapshots_ket = true
    · rw [treeRun_ket_on regs e0.qudit_dim e0.epsilon t e0 hflag rfl rfl hfresh.1]
      have hg : ∀ g ∈ t.groups, (runShots e0 regs g).snapshots_ket
          = ketTrace e0.qudit_dim e0.epsilon regs g := by
        intro g _
        rw [runShots_ket_on regs e0.qudit_dim e0.epsilon g e0 hflag rfl rfl, hfresh.1]
        rfl
      rw [List.map_congr_left hg, ketTrace_flatten]
    · have hflag' : e0.show_snapshots_ket = false := Bool.not_eq_true _ ▸ hflag
      rw [treeRun_ket_off regs t e0 hflag' hfresh.1]
      have hg : ∀ g ∈ t.groups, (runShots e0 regs g).snapshots_ket = ([] : List _) := by
        intro g _
        rw [runShots_ket_off regs g e0 hflag', hfresh.1]
      rw [List.map_congr_left hg, flatten_const_nil]
  · exact tree_inprods_concat regs t e0 hfresh.2.2.2.2.1

/-- C5 witness: the order-preservation theorem applied to the concrete
two-shot, two-group merge tree. -/
theorem C5_merge_order_preservation_witness :
    ((∀ sh ∈ c1Tree.groups.flatten, Shot.wf 1 sh) ∧
      (∀ tv ∈ c1Engine.target_states, tv.length = 1)) ∧
    ((c1Tree.run c1Engine []).snapshots_ket
      = (c1Tree.groups.map (fun g => (runShots c1Engine [] g).snapshots_ket)).flatten) ∧
    (∀ l, (alookup ((c1Tree.run c1Engine []).snapshots_inprods) l).getD []
      = (c1Tree.groups.map (fun g =>
          (alookup ((runShots c1Engine [] g).snapshots_inprods) l).getD [])).flatten) :=
  ⟨⟨by decide, by decide⟩,
   C5_merge_order_preservation c1Engine [] 1 c1Tree ⟨rfl, rfl, rfl, rfl, rfl, rfl⟩
     (by decide) (by decide)⟩

/-! ### Merge identities -/

theorem amerge_nil_right {α β : Type} [DecidableEq α] (g : β → β → β) (dflt : β)
    (a : List (α × β)) : amerge g dflt a [] = a := rfl

theorem ainsert_of_not_mem {α β : Type} [DecidableEq α] (g : β → β → β) (dflt : β)
    {k : α} (v : β) {m : List (α × β)} (h : k ∉ m.map Prod.fst) :
    ainsert g dflt k v m = m ++ [(k, g dflt v)] := by
  induction m with
  | nil => rfl
  | cons p m ih =>
    obtain ⟨k', v'⟩ := p
    simp only [List.map_cons, List.mem_cons] at h
    push_neg at h
    have hk : k' ≠ k := fun hkk => h.1 hkk.symm
    simp [ainsert, if_neg hk, ih h.2]

theorem amerge_acc_of_id {α β : Type} [DecidableEq α] (g : β → β → β) (dflt : β)
    (m : List (α × β)) :
    ∀ acc : List (α × β), (∀ k ∈ m.map Prod.fst, k ∉ acc.map Prod.fst) →
      (m.map Prod.fst).Nodup → (∀ p ∈ m, g dflt p.2 = p.2) →
      amerge g dflt acc m = acc ++ m := by
  induction m with
  | nil => intro acc _ _ _; simp [amerge_nil_right]
  | cons p m ih =>
    intro acc hdis hnd hid
    obtain ⟨k, v⟩ := p
    simp only [List.map_cons, List.nodup_cons] at hnd
    have hstep : amerge g dflt acc ((k, v) :: m) = amerge g dflt (ainsert g dflt k v acc) m :=
      rfl
    rw [hstep, ainsert_of_not_mem g dflt v (hdis k (by simp)),
      hid (k, v) (List.mem_cons_self _ _)]
    rw [ih (acc ++ [(k, v)]) ?hdis2 hnd.2 (fun p hp => hid p (List.mem_cons_of_mem _ hp))]
    · simp
    · intro k' hk'
      simp only [List.map_append, List.mem_append, List.map_cons, List.map_nil,
        List.mem_singleton, not_or]
      constructor
      · exact hdis k' (by simp [hk'])
      · intro hkk
        rw [hkk] at hk'
        exact hnd.1 hk'

theorem amerge_nil_left_of_id {α β : Type} [DecidableEq α] (g : β → β → β) (dflt : β)
    {m : List (α × β)} (hnd : (m.map Prod.fst).Nodup)
    (hid : ∀ p ∈ m, g dflt p.2 = p.2) : amerge g dflt [] m = m := by
  rw [amerge_acc_of_id g dflt m [] (by simp) hnd hid]
  rfl

/-! ### Claim C10 -/

/-- C10: Merge identity.  Merging a freshly-constructed engine into any
accumulator leaves every per-label snapshot field unchanged, and merging
any accumulator into a freshly-constructed engine yields those same
fields. -/
theorem C10_merge_identity (e : VectorEngine) (hnd : e.nodupKeys) :
    ((e.add {}).snapshots_ket = e.snapshots_ket ∧
     (e.add {}).snapshots_density = e.snapshots_density ∧
     (e.add {}).snapshots_probs = e.snapshots_probs ∧
     (e.add {}).snapshots_probs_ket = e.snapshots_probs_ket ∧
     (e.add {}).snapshots_overlaps = e.snapshots_overlaps ∧
     (e.add {}).snapshots_inprods = e.snapshots_inprods) ∧
    ((({} : VectorEngine).add e).snapshots_ket = e.snapshots_ket ∧
     (({} : VectorEngine).add e).snapshots_density = e.snapshots_density ∧
     (({} : VectorEngine).add e).snapshots_probs = e.snapshots_probs ∧
     (({} : VectorEngine).add e).snapshots_probs_ket = e.snapshots_probs_ket ∧
     (({} : VectorEngine).add e).snapshots_overlaps = e.snapshots_overlaps ∧
     (({} : VectorEngine).add e).snapshots_inprods = e.snapshots_inprods) := by
  obtain ⟨h1, h2, h3, h4, h5⟩ := hnd
  constructor
  · refine ⟨?_, rfl, rfl, rfl, rfl, rfl⟩
    rw [add_ket_def]
    simp
  · refine ⟨?_, ?_, ?_, ?_, ?_, ?_⟩
    · rw [add_ket_def]
      rfl

    · rw [add_density_def]
      exact amerge_nil_left_of_id gdens [] h1 (fun p _ => gdens_nil_left p.2)
    · rw [add_probs_def]
      exact amerge_nil_left_of_id rvadd [] h2 (fun p _ => rvadd_nil_left p.2)
    · rw [add_probs_ket_def]
      exact amerge_nil_left_of_id rkadd rkEmpty h3 (fun p _ => rkadd_empty_left p.2)
    · rw [add_overlaps_def]
      exact amerge_nil_left_of_id rvadd [] h5 (fun p _ => rvadd_nil_left p.2)
    · rw [add_inprods_def]
      exact amerge_nil_left_of_id (· ++ ·) [] h4 (fun p _ => rfl)

/-- C10 witness: the merge-identity theorem applied to a concrete engine
holding one entry per accumulated category. -/
theorem C10_merge_identity_witness :
    c10Engine.nodupKeys ∧
    ((({} : VectorEngine).add c10Engine).snapshots_probs = c10Engine.snapshots_probs ∧
     (c10Engine.add {}).snapshots_probs = c10Engine.snapshots_probs) :=
  ⟨by decide,
   (C10_merge_identity c10Engine (by decide)).2.2.2.1,
   (C10_merge_identity c10Engine (by decide)).1.2.2.1⟩

/-! ### Claim C2 -/

theorem compute_inprods_first_mismatch (ts : List (List Cx)) (psi : List Cx) (eps : ℚ)
    (q m : Nat) (hpsi : psi.length = m) :
    (∃ t ∈ ts, t.length ≠ m) →
    ∃ k, (∃ t ∈ ts, t.length = k ∧ k ≠ m) ∧
      compute_inprods ts psi eps q = .error ⟨k, q⟩ := by
  induction ts with
  | nil =>
    intro hex
    obtain ⟨t, ht, _⟩ := hex
    cases ht
  | cons t ts ih =>
    intro hex
    by_cases ht : t.length = psi.length
    · have hex' : ∃ t' ∈ ts, t'.length ≠ m := by
        obtain ⟨t', ht', hne⟩ := hex
        rcases List.mem_cons.mp ht' with rfl | hmem
        · exact absurd (ht.trans hpsi) hne
        · exact ⟨t', hmem, hne⟩
      obtain ⟨k, ⟨t', ht', hk⟩, herr⟩ := ih hex'
      refine ⟨k, ⟨t', List.mem_cons_of_mem _ ht', hk⟩, ?_⟩
      simp [compute_inprods, ht, herr]
    · refine ⟨t.length, ⟨t, List.mem_cons_self _ _, rfl, fun hh => ht (by rw [hh, ← hpsi])⟩, ?_⟩
      simp [compute_inprods, ht]

theorem inprodLoop_first_error (q : Nat) (e : VectorEngine) (p : Nat × List Cx)
    (rest : List (Nat × List Cx)) (err : SizeMismatch)
    (herr : compute_inprods e.target_states p.2 e.epsilon q = .error err) :
    inprodLoop q e (p :: rest) = (e, some err) := by
  simp [inprodLoop, herr]

/-- C2: Size-mismatch failure.  For a compute call with inner-product or
overlap output enabled, snapshots of common length `m` captured from a
working register of that same length, and some target state whose length
differs from `m`, the call fails with a `SizeMismatch` carrying the
offending target-state length `k` and `m`, and no inner-product or overlap
entries are committed to the accumulator by the failing call. -/
theorem C2_size_mismatch_failure (e : VectorEngine) (regs : List Nat) (qreg : List Cx)
    (snaps : List (Nat × List Cx)) (m : Nat)
    (hflag : e.show_snapshots_inner_product = true ∨ e.show_snapshots_overlaps = true)
    (hne : snaps ≠ [])
    (hm : ∀ p ∈ snaps, (p.2 : List Cx).length = m)
    (hq : qreg.length = m)
    (hex : ∃ t ∈ e.target_states, t.length ≠ m) :
    ∃ k e', (∃ t ∈ e.target_states, t.length = k ∧ k ≠ m) ∧
      compute_results e regs qreg snaps = (e', some ⟨k, m⟩) ∧
      e'.snapshots_inprods = e.snapshots_inprods ∧
      e'.snapshots_overlaps = e.snapshots_overlaps := by
  rw [compute_results_eq]
  have hempty : snaps.isEmpty = false := by
    cases snaps with
    | nil => exact absurd rfl hne
    | cons p rest => rfl
  simp only [hempty, Bool.false_eq_true, if_false]
  unfold inprodStage
  have htne : e.target_states ≠ [] := by
    obtain ⟨t, ht, _⟩ := hex
    exact List.ne_nil_of_mem ht
  have hguard : (!(preStages e regs snaps).target_states.isEmpty &&
      ((preStages e regs snaps).show_snapshots_inner_product ||
        (preStages e regs snaps).show_snapshots_overlaps)) = true := by
    rcases hflag with h | h <;>
      simp [preStages_target_states, preStages_show_inner, preStages_show_overlaps, htne, h]
  rw [if_pos hguard]
  obtain ⟨p, rest, rfl⟩ : ∃ p rest, snaps = p :: rest := by
    cases snaps with
    | nil => exact absurd rfl hne
    | cons p rest => exact ⟨p, rest, rfl⟩
  have hp : (p.2 : List Cx).length = m := hm p (List.mem_cons_self _ _)
  obtain ⟨k, hk, herr⟩ :=
    compute_inprods_first_mismatch e.target_states p.2 e.epsilon qreg.length m hp hex
  have herr' : compute_inprods (preStages e regs (p :: rest)).target_states p.2
      (preStages e regs (p :: rest)).epsilon qreg.length = .error ⟨k, qreg.length⟩ := by
    rw [preStages_target_states, preStages_epsilon]
    exact herr
  rw [inprodLoop_first_error qreg.length _ p rest _ herr']
  rw [hq]
  exact ⟨k, preStages e regs (p :: rest), hk, rfl,
    preStages_inprods e regs (p :: rest), preStages_overlaps e regs (p :: rest)⟩

/-- C2 witness: the size-mismatch theorem applied to a concrete call whose
second target state has length 2 while the snapshot and register have
length 1. -/
theorem C2_size_mismatch_failure_witness :
    ((c2Engine.show_snapshots_inner_product = true ∨
      c2Engine.show_snapshots_overlaps = true) ∧
     (∃ t ∈ c2Engine.target_states, t.length ≠ 1)) ∧
    ∃ k e', (∃ t ∈ c2Engine.target_states, t.length = k ∧ k ≠ 1) ∧
      compute_results c2Engine [] [⟨1, 0⟩] [(0, [⟨1, 0⟩])] = (e', some ⟨k, 1⟩) ∧
      e'.snapshots_inprods = c2Engine.snapshots_inprods ∧
      e'.snapshots_overlaps = c2Engine.snapshots_overlaps :=
  ⟨⟨Or.inl rfl, by decide⟩,
   C2_size_mismatch_failure c2Engine [] [⟨1, 0⟩] [(0, [⟨1, 0⟩])] 1 (Or.inl rfl)
     (by decide) (by decide) (by decide) (by decide)⟩

/-! ### Claim C7 -/

/-- C7 counterexample: the engine does not append the raw inner product
`(snapshot · target*)`: the compute call on `c7Psi` stores the chopped
value `0` although the inner product is `10⁻²⁰ ≠ 0`, and adds `|0|²` rather
than `|10⁻²⁰|²` into the overlap sum. -/
theorem C7_inner_product_raw_counterexample :
    alookup ((compute_results c7Engine [] c7Psi [(0, c7Psi)]).1.snapshots_inprods) 0
      = some [[⟨0, 0⟩]] ∧
    c7Engine.target_states.map (fun t => inner_product c7Psi t) = [⟨1 / 10 ^ 20, 0⟩] ∧
    (⟨1 / 10 ^ 20, 0⟩ : Cx) ≠ ⟨0, 0⟩ ∧
    alookup ((compute_results c7Engine [] c7Psi [(0, c7Psi)]).1.snapshots_overlaps) 0
      = some [0] ∧
    get_probs_c ⟨1 / 10 ^ 20, 0⟩ ≠ 0 := by
  have hts : c7Engine.target_states = [[⟨1, 0⟩, ⟨0, 0⟩]] := rfl
  have heps : c7Engine.epsilon = 1 / 10 ^ 10 := rfl
  have hsi : c7Engine.snapshots_inprods = [] := rfl
  have hso : c7Engine.snapshots_overlaps = [] := rfl
  have hip : inner_product c7Psi [⟨1, 0⟩, ⟨0, 0⟩] = ⟨1 / 10 ^ 20, 0⟩ := by
    norm_num [c7Psi, inner_product, cmul, cconj, cadd, czero]
  have h1 : |(1 : ℚ) / 10 ^ 20| < 1 / 10 ^ 10 := by
    rw [abs_of_pos (by norm_num)]
    norm_num
  have h2 : |(0 : ℚ)| < 1 / 10 ^ 10 := by norm_num
  have hchop : chopC c7Engine.epsilon ⟨1 / 10 ^ 20, 0⟩ = ⟨0, 0⟩ := by
    simp only [chopC, chopR, heps]
    rw [if_pos h1, if_pos h2]
  have hips : ipsC c7Engine.target_states c7Engine.epsilon c7Psi = [⟨0, 0⟩] := by
    simp only [ipsC, hts, List.map_cons, List.map_nil]
    rw [hip, hchop]
  refine ⟨?_, ?_, ?_, ?_, ?_⟩
  · rw [compute_results_inprods_on (n := 2) c7Engine [] c7Psi [(0, c7Psi)] rfl
      (by decide) (by decide) (by decide)]
    simp [amerge, ainsert, alookup, hips, hsi]
  · rw [hts]
    simp only [List.map_cons, List.map_nil]
    rw [hip]
  · intro h
    have hre := congrArg Cx.re h
    norm_num at hre
  · rw [compute_results_overlaps_on (n := 2) c7Engine [] c7Psi [(0, c7Psi)] rfl
      (by decide) (by decide) (by decide)]
    have hov : ovC c7Engine.target_states c7Engine.epsilon c7Psi = [0] := by
      rw [ovC, hips]
      simp [get_probs_v, get_probs_c, cmul, cconj]
    simp [amerge, ainsert, alookup, hov, rvadd, hso]
  · simp only [get_probs_c, cmul, cconj]
    norm_num

/-- C7 (amended): Inner-product and overlap accumulation.  For every
enabled compute call with a non-empty target list and size-consistent data,
each snapshot appends to its label's inner-product list one ordered
sequence holding, per target state in target-list order, the
chop-thresholded inner product `chop(snapshot · target*)`, and adds the
squared modulus of each chopped inner product into that label's overlap
sum at the corresponding target index. -/
theorem C7_inner_overlap_accumulation (e : VectorEngine) (regs : List Nat)
    (qreg : List Cx) (snaps : List (Nat × List Cx)) {n : Nat}
    (hin : e.show_snapshots_inner_product = true)
    (hov : e.show_snapshots_overlaps = true)
    (htne : e.target_states ≠ [])
    (hnd : (snaps.map Prod.fst).Nodup)
    (ht : ∀ t ∈ e.target_states, t.length = n)
    (hs : ∀ p ∈ snaps, (p.2 : List Cx).length = n) :
    (compute_results e regs qreg snaps).2 = none ∧
    ∀ l psi, (l, psi) ∈ snaps →
      alookup ((compute_results e regs qreg snaps).1.snapshots_inprods) l
        = some (((alookup e.snapshots_inprods l).getD []) ++
            [e.target_states.map (fun t => chopC e.epsilon (inner_product psi t))]) ∧
      alookup ((compute_results e regs qreg snaps).1.snapshots_overlaps) l
        = some (rvadd ((alookup e.snapshots_overlaps l).getD [])
            (get_probs_v (e.target_states.map
              (fun t => chopC e.epsilon (inner_product psi t))))) := by
  refine ⟨compute_results_no_error e regs qreg snaps ht hs, ?_⟩
  intro l psi hmem
  have hlk : alookup snaps l = some psi := alookup_of_mem_nodup hnd hmem
  constructor
  · rw [compute_results_inprods_on (n := n) e regs qreg snaps hin htne ht hs]
    rw [alookup_amerge _ _ _ _ (by rw [keys_map_pair]; exact hnd) l]
    rw [alookup_map_pair, hlk]
    simp [oacc, ipsC]
  · rw [compute_results_overlaps_on (n := n) e regs qreg snaps hov htne ht hs]
    rw [alookup_amerge _ _ _ _ (by rw [keys_map_pair]; exact hnd) l]
    rw [alookup_map_pair, hlk]
    simp [oacc, ovC, ipsC]

/-- C7 witness: the amended accumulation theorem applied to the concrete
call on `c7Psi`, with every hypothesis discharged by evaluation. -/
theorem C7_inner_overlap_accumulation_witness :
    (c7Engine.show_snapshots_inner_product = true ∧
     c7Engine.show_snapshots_overlaps = true ∧
     c7Engine.target_states ≠ [] ∧
     (∀ t ∈ c7Engine.target_states, t.length = 2) ∧
     (∀ p ∈ [(0, c7Psi)], (p.2 : List Cx).length = 2)) ∧
    (alookup ((compute_results c7Engine [] c7Psi [(0, c7Psi)]).1.snapshots_inprods) 0
      = some (((alookup c7Engine.snapshots_inprods 0).getD []) ++
          [c7Engine.target_states.map
            (fun t => chopC c7Engine.epsilon (inner_product c7Psi t))]) ∧
     alookup ((compute_results c7Engine [] c7Psi [(0, c7Psi)]).1.snapshots_overlaps) 0
      = some (rvadd ((alookup c7Engine.snapshots_overlaps 0).getD [])
          (get_probs_v (c7Engine.target_states.map
            (fun t => chopC c7Engine.epsilon (inner_product c7Psi t)))))) :=
  ⟨⟨rfl, rfl, by decide, by decide, by decide⟩,
   (C7_inner_overlap_accumulation c7Engine [] c7Psi [(0, c7Psi)] (n := 2) rfl rfl
     (by decide) (by decide) (by decide) (by decide)).2 0 c7Psi
     (List.mem_cons_self (0, c7Psi) [])⟩

/-! ### Claim C8 -/

/-- C8: Sparsity of accumulation.  A compute call for a shot with no
captured snapshots leaves every accumulated category entirely unchanged; a
category whose selector is off is left unchanged; and with an empty
target-state list the inner-product and overlap categories are left
unchanged. -/
theorem C8_sparsity (e : VectorEngine) (regs : List Nat) (qreg : List Cx)
    (snaps : List (Nat × List Cx)) :
    (snaps = [] →
      (compute_results e regs qreg snaps).1.snapshots_ket = e.snapshots_ket ∧
      (compute_results e regs qreg snaps).1.snapshots_density = e.snapshots_density ∧
      (compute_results e regs qreg snaps).1.snapshots_probs = e.snapshots_probs ∧
      (compute_results e regs qreg snaps).1.snapshots_probs_ket = e.snapshots_probs_ket ∧
      (compute_results e regs qreg snaps).1.snapshots_inprods = e.snapshots_inprods ∧
      (compute_results e regs qreg snaps).1.snapshots_overlaps = e.snapshots_overlaps) ∧
    (e.show_snapshots_ket = false →
      (compute_results e regs qreg snaps).1.snapshots_ket = e.snapshots_ket) ∧
    (e.show_snapshots_density = false →
      (compute_results e regs qreg snaps).1.snapshots_density = e.snapshots_density) ∧
    (e.show_snapshots_probs = false →
      (compute_results e regs qreg snaps).1.snapshots_probs = e.snapshots_probs) ∧
    (e.show_snapshots_probs_ket = false →
      (compute_results e regs qreg snaps).1.snapshots_probs_ket = e.snapshots_probs_ket) ∧
    (e.show_snapshots_inner_product = false →
      (compute_results e regs qreg snaps).1.snapshots_inprods = e.snapshots_inprods) ∧
    (e.show_snapshots_overlaps = false →
      (compute_results e regs qreg snaps).1.snapshots_overlaps = e.snapshots_overlaps) ∧
    (e.target_states = [] →
      (compute_results e regs qreg snaps).1.snapshots_inprods = e.snapshots_inprods ∧
      (compute_results e regs qreg snaps).1.snapshots_overlaps = e.snapshots_overlaps) := by
  refine ⟨?_, ?_, ?_, ?_, ?_, ?_, ?_, ?_⟩
  · intro hnil
    subst hnil
    rw [compute_results_eq]
    exact ⟨rfl, rfl, rfl, rfl, rfl, rfl⟩
  · exact compute_results_ket_off e regs qreg snaps
  · exact compute_results_density_off e regs qreg snaps
  · exact compute_results_probs_off e regs qreg snaps
  · exact compute_results_probs_ket_off e regs qreg snaps
  · exact compute_results_inprods_off e regs qreg snaps
  · exact compute_results_overlaps_off e regs qreg snaps
  · exact compute_results_inprods_no_targets e regs qreg snaps

/-- C8 witness: the sparsity theorem applied to a concrete shot with no
captured snapshots (fully-enabled engine) and to a concrete shot on an
engine with every selector off. -/
theorem C8_sparsity_witness :
    ((compute_results c1Engine [] [⟨1, 0⟩] []).1.snapshots_ket = c1Engine.snapshots_ket ∧
     (compute_results c1Engine [] [⟨1, 0⟩] []).1.snapshots_density
       = c1Engine.snapshots_density ∧
     (compute_results c1Engine [] [⟨1, 0⟩] []).1.snapshots_probs
       = c1Engine.snapshots_probs ∧
     (compute_results c1Engine [] [⟨1, 0⟩] []).1.snapshots_probs_ket
       = c1Engine.snapshots_probs_ket ∧
     (compute_results c1Engine [] [⟨1, 0⟩] []).1.snapshots_inprods
       = c1Engine.snapshots_inprods ∧
     (compute_results c1Engine [] [⟨1, 0⟩] []).1.snapshots_overlaps
       = c1Engine.snapshots_overlaps) ∧
    (compute_results ({} : VectorEngine) [] [⟨1, 0⟩] [(0, [⟨1, 0⟩])]).1.snapshots_density
      = ({} : VectorEngine).snapshots_density :=
  ⟨(C8_sparsity c1Engine [] [⟨1, 0⟩] []).1 rfl,
   (C8_sparsity {} [] [⟨1, 0⟩] [(0, [⟨1, 0⟩])]).2.2.1 rfl⟩

/-! ### Claim C3 -/

/-- C3: Renormalization scope.  At render time, the density, probability,
probability-ket and overlap sums are each multiplied by
`1 / total_shots` (and then chopped), while the ket-snapshot list and the
inner-product lists are emitted exactly as accumulated, with no
renormalization. -/
theorem C3_renormalization_scope (e : VectorEngine) :
    (e.show_snapshots_ket = true → e.snapshots_ket ≠ [] →
      (to_json e).quantum_state_ket = some e.snapshots_ket) ∧
    (e.show_snapshots_density = true → e.snapshots_density ≠ [] →
      (to_json e).density_matrix = some (e.snapshots_density.map (fun p =>
        (p.1, chopMat e.epsilon (matScale (1 / (e.total_shots : ℚ)) p.2))))) ∧
    (e.show_snapshots_probs = true → e.snapshots_probs ≠ [] →
      (to_json e).probabilities = some (e.snapshots_probs.map (fun p =>
        (p.1, chopRV e.epsilon (rvscale (1 / (e.total_shots : ℚ)) p.2))))) ∧
    (e.show_snapshots_probs_ket = true → e.snapshots_probs_ket ≠ [] →
      (to_json e).probabilities_ket = some (e.snapshots_probs_ket.map (fun p =>
        (p.1, fun s => (p.2 s).map (fun x =>
          chopR e.epsilon (x * (1 / (e.total_shots : ℚ)))))))) ∧
    (e.show_snapshots_inner_product = true → e.snapshots_inprods ≠ [] →
      (to_json e).inner_products = some e.snapshots_inprods) ∧
    (e.show_snapshots_overlaps = true → e.snapshots_overlaps ≠ [] →
      (to_json e).overlaps = some (e.snapshots_overlaps.map (fun p =>
        (p.1, chopRV e.epsilon (rvscale (1 / (e.total_shots : ℚ)) p.2))))) := by
  refine ⟨?_, ?_, ?_, ?_, ?_, ?_⟩ <;> intro hflag hne <;>
    simp [to_json, hflag, hne]

/-- C3 witness: the renormalization-scope theorem applied to a concrete
fully-enabled engine with one accumulated entry per category. -/
theorem C3_renormalization_scope_witness :
    (c3Engine.show_snapshots_ket = true ∧ c3Engine.snapshots_ket ≠ []) ∧
    ((to_json c3Engine).quantum_state_ket = some c3Engine.snapshots_ket ∧
     (to_json c3Engine).inner_products = some c3Engine.snapshots_inprods) :=
  ⟨⟨rfl, List.cons_ne_nil _ _⟩,
   (C3_renormalization_scope c3Engine).1 rfl (List.cons_ne_nil _ _),
   (C3_renormalization_scope c3Engine).2.2.2.2.1 rfl (List.cons_ne_nil _ _)⟩

/-! ### Claim C4 -/

/-- C4: in the rendered output, the `inner_products` field is NOT chopped:
`to_json` serializes the accumulated `snapshots_inprods` unchanged
(line 321 emits `eng.snapshots_inprods`, discarding the chopped copy built
in lines 318-320), so the emitted entry still holds the component
`10⁻²⁰`, whose magnitude lies below the threshold and whose chop is
exactly zero.  This contradicts the claim and the clear intent of the
dead chopped copy in the source. -/
theorem C4_inner_products_not_chopped :
    (to_json c4Engine).inner_products = some [(0, [[⟨1 / 10 ^ 20, 0⟩]])] ∧
    chopC c4Engine.epsilon ⟨1 / 10 ^ 20, 0⟩ = ⟨0, 0⟩ ∧
    (⟨1 / 10 ^ 20, 0⟩ : Cx) ≠ ⟨0, 0⟩ := by
  refine ⟨rfl, ?_, ?_⟩
  · have h1 : |(1 : ℚ) / 10 ^ 20| < 1 / 10 ^ 10 := by
      rw [abs_of_pos (by norm_num)]
      norm_num
    have h2 : |(0 : ℚ)| < 1 / 10 ^ 10 := by norm_num
    have heps : c4Engine.epsilon = 1 / 10 ^ 10 := rfl
    simp only [chopC, chopR, heps]
    rw [if_pos h1, if_pos h2]
  · intro h
    have hre := congrArg Cx.re h
    norm_num at hre

/-! ### Claim C6 -/

/-- C6: Render purity and repeatability.  Rendering depends only on the
selectors, the chop threshold, the shot count and the accumulated fields
(two engines agreeing on those render identically), the render call hands
the engine back unchanged, and rendering the returned engine again yields
the identical document. -/
theorem C6_render_purity (e1 e2 : VectorEngine)
    (hk : e1.show_snapshots_ket = e2.show_snapshots_ket)
    (hd : e1.show_snapshots_density = e2.show_snapshots_density)
    (hp : e1.show_snapshots_probs = e2.show_snapshots_probs)
    (hpk : e1.show_snapshots_probs_ket = e2.show_snapshots_probs_ket)
    (hi : e1.show_snapshots_inner_product = e2.show_snapshots_inner_product)
    (ho : e1.show_snapshots_overlaps = e2.show_snapshots_overlaps)
    (heps : e1.epsilon = e2.epsilon) (hshots : e1.total_shots = e2.total_shots)
    (f1 : e1.snapshots_ket = e2.snapshots_ket)
    (f2 : e1.snapshots_density = e2.snapshots_density)
    (f3 : e1.snapshots_probs = e2.snapshots_probs)
    (f4 : e1.snapshots_probs_ket = e2.snapshots_probs_ket)
    (f5 : e1.snapshots_inprods = e2.snapshots_inprods)
    (f6 : e1.snapshots_overlaps = e2.snapshots_overlaps) :
    to_json e1 = to_json e2 ∧
    render_state e1 = (to_json e1, e1) ∧
    (render_state ((render_state e1).2)).1 = (render_state e1).1 := by
  refine ⟨?_, rfl, rfl⟩
  simp only [to_json, hk, hd, hp, hpk, hi, ho, heps, hshots, f1, f2, f3, f4, f5, f6]

/-- C6 witness: rendering is identical for two engines that differ only in
target states and qudit radix, and repeated rendering of the same engine
is safe. -/
theorem C6_render_purity_witness :
    (c3Engine.epsilon = c6Engine2.epsilon ∧
     c3Engine.total_shots = c6Engine2.total_shots ∧
     c3Engine.target_states ≠ c6Engine2.target_states) ∧
    (to_json c3Engine = to_json c6Engine2 ∧
     render_state c3Engine = (to_json c3Engine, c3Engine) ∧
     (render_state ((render_state c3Engine).2)).1 = (render_state c3Engine).1) :=
  ⟨⟨rfl, rfl, by decide⟩,
   C6_render_purity c3Engine c6Engine2 rfl rfl rfl rfl rfl rfl rfl rfl rfl rfl rfl rfl
     rfl rfl⟩

/-! ### Claim C9: token recognition -/

theorem apply_token_ket (e : VectorEngine) (o : String) :
    (apply_token e o).show_snapshots_ket
      = (e.show_snapshots_ket ||
          decide (normalize_token o = "quantumstateket" ∨
            normalize_token o = "quantumstatesket")) := by
  unfold apply_token
  by_cases h1 : normalize_token o = "quantumstateket" ∨
      normalize_token o = "quantumstatesket"
  · simp [h1]
  · simp only [if_neg h1]
    split_ifs <;> simp [h1]

theorem apply_token_density (e : VectorEngine) (o : String) :
    (apply_token e o).show_snapshots_density
      = (e.show_snapshots_density || decide (normalize_token o = "densitymatrix")) := by
  unfold apply_token
  by_cases h1 : normalize_token o = "quantumstateket" ∨
      normalize_token o = "quantumstatesket"
  · have hx : ¬ normalize_token o = "densitymatrix" := by
      rcases h1 with h | h <;> rw [h] <;> decide
    simp [h1, hx]
  · by_cases h2 : normalize_token o = "densitymatrix"
    · simp [h1, h2]
    · simp only [if_neg h1, if_neg h2]
      split_ifs <;> simp [h2]

theorem apply_token_probs (e : VectorEngine) (o : String) :
    (apply_token e o).show_snapshots_probs
      = (e.show_snapshots_probs ||
          decide (normalize_token o = "probabilities" ∨ normalize_token o = "probs")) := by
  unfold apply_token
  by_cases h1 : normalize_token o = "quantumstateket" ∨
      normalize_token o = "quantumstatesket"
  · have hx : ¬ (normalize_token o = "probabilities" ∨ normalize_token o = "probs") := by
      rcases h1 with h | h <;> rw [h] <;> decide
    simp [h1, hx]
  · by_cases h2 : normalize_token o = "densitymatrix"
    · have hx : ¬ (normalize_token o = "probabilities" ∨ normalize_token o = "probs") := by
        rw [h2]
        decide
      simp [h1, h2, hx]
    · by_cases h3 : normalize_token o = "probabilities" ∨ normalize_token o = "probs"
      · simp [h1, h2, h3]
      · simp only [if_neg h1, if_neg h2, if_neg h3]
        split_ifs <;> simp [h3]

theorem apply_token_probs_ket (e : VectorEngine) (o : String) :
    (apply_token e o).show_snapshots_probs_ket
      = (e.show_snapshots_probs_ket ||
          decide (normalize_token o = "probabilitiesket" ∨
            normalize_token o = "probsket")) := by
  unfold apply_token
  by_cases h1 : normalize_token o = "quantumstateket" ∨
      normalize_token o = "quantumstatesket"
  · have hx : ¬ (normalize_token o = "probabilitiesket" ∨
        normalize_token o = "probsket") := by
      rcases h1 with h | h <;> rw [h] <;> decide
    simp [h1, hx]
  · by_cases h2 : normalize_token o = "densitymatrix"
    · have hx : ¬ (normalize_token o = "probabilitiesket" ∨
          normalize_token o = "probsket") := by
        rw [h2]
        decide
      simp [h1, h2, hx]
    · by_cases h3 : normalize_token o = "probabilities" ∨ normalize_token o = "probs"
      · have hx : ¬ (normalize_token o = "probabilitiesket" ∨
            normalize_token o = "probsket") := by
          rcases h3 with h | h <;> rw [h] <;> decide
        simp [h1, h2, h3, hx]
      · by_cases h4 : normalize_token o = "probabilitiesket" ∨
            normalize_token o = "probsket"
        · simp [h1, h2, h3, h4]
        · simp only [if_neg h1, if_neg h2, if_neg h3, if_neg h4]
          split_ifs <;> simp [h4]

theorem apply_token_inner (e : VectorEngine) (o : String) :
    (apply_token e o).show_snapshots_inner_product
      = (e.show_snapshots_inner_product ||
          decide (normalize_token o = "targetstatesinner")) := by
  unfold apply_token
  by_cases h1 : normalize_token o = "quantumstateket" ∨
      normalize_token o = "quantumstatesket"
  · have hx : ¬ normalize_token o = "targetstatesinner" := by
      rcases h1 with h | h <;> rw [h] <;> decide
    simp [h1, hx]
  · by_cases h2 : normalize_token o = "densitymatrix"
    · have hx : ¬ normalize_token o = "targetstatesinner" := by
        rw [h2]
        decide
      simp [h1, h2, hx]
    · by_cases h3 : normalize_token o = "probabilities" ∨ normalize_token o = "probs"
      · have hx : ¬ normalize_token o = "targetstatesinner" := by
          rcases h3 with h | h <;> rw [h] <;> decide
        simp [h1, h2, h3, hx]
      · by_cases h4 : normalize_token o = "probabilitiesket" ∨
            normalize_token o = "probsket"
        · have hx : ¬ normalize_token o = "targetstatesinner" := by
            rcases h4 with h | h <;> rw [h] <;> decide
          simp [h1, h2, h3, h4, hx]
        · by_cases h5 : normalize_token o = "targetstatesinner"
          · simp [h1, h2, h3, h4, h5]
          · simp only [if_neg h1, if_neg h2, if_neg h3, if_neg h4, if_neg h5]
            split_ifs <;> simp [h5]

theorem apply_token_overlaps (e : VectorEngine) (o : String) :
    (apply_token e o).show_snapshots_overlaps
      = (e.show_snapshots_overlaps ||
          decide (normalize_token o = "targetstatesprobs")) := by
  unfold apply_token
  by_cases h1 : normalize_token o = "quantumstateket" ∨
      normalize_token o = "quantumstatesket"
  · have hx : ¬ normalize_token o = "targetstatesprobs" := by
      rcases h1 with h | h <;> rw [h] <;> decide
    simp [h1, hx]
  · by_cases h2 : normalize_token o = "densitymatrix"
    · have hx : ¬ normalize_token o = "targetstatesprobs" := by
        rw [h2]
        decide
      simp [h1, h2, hx]
    · by_cases h3 : normalize_token o = "probabilities" ∨ normalize_token o = "probs"
      · have hx : ¬ normalize_token o = "targetstatesprobs" := by
          rcases h3 with h | h <;> rw [h] <;> decide
        simp [h1, h2, h3, hx]
      · by_cases h4 : normalize_token o = "probabilitiesket" ∨
            normalize_token o = "probsket"
        · have hx : ¬ normalize_token o = "targetstatesprobs" := by
            rcases h4 with h | h <;> rw [h] <;> decide
          simp [h1, h2, h3, h4, hx]
        · by_cases h5 : normalize_token o = "targetstatesinner"
          · have hx : ¬ normalize_token o = "targetstatesprobs" := by
              rw [h5]
              decide
            simp [h1, h2, h3, h4, h5, hx]
          · by_cases h6 : normalize_token o = "targetstatesprobs"
            · simp [h1, h2, h3, h4, h5, h6]
            · simp only [if_neg h1, if_neg h2, if_neg h3, if_neg h4, if_neg h5, if_neg h6]
              simp [h6]

theorem apply_token_frame (e : VectorEngine) (o : String) :
    (apply_token e o).qudit_dim = e.qudit_dim ∧
    (apply_token e o).epsilon = e.epsilon ∧
    (apply_token e o).target_states = e.target_states ∧
    (apply_token e o).snapshots_ket = e.snapshots_ket ∧
    (apply_token e o).snapshots_density = e.snapshots_density ∧
    (apply_token e o).snapshots_probs = e.snapshots_probs ∧
    (apply_token e o).snapshots_probs_ket = e.snapshots_probs_ket ∧
    (apply_token e o).snapshots_inprods = e.snapshots_inprods ∧
    (apply_token e o).snapshots_overlaps = e.snapshots_overlaps ∧
    (apply_token e o).total_shots = e.total_shots := by
  simp only [apply_token]
  split_ifs <;> exact ⟨rfl, rfl, rfl, rfl, rfl, rfl, rfl, rfl, rfl, rfl⟩

theorem foldl_apply_token_ket (opts : List String) :
    ∀ e : VectorEngine, (opts.foldl apply_token e).show_snapshots_ket
      = (e.show_snapshots_ket || opts.any (fun o =>
          decide (normalize_token o = "quantumstateket" ∨
            normalize_token o = "quantumstatesket"))) := by
  induction opts with
  | nil => intro e; simp
  | cons o opts ih =>
    intro e
    rw [List.foldl_cons, ih, apply_token_ket]
    simp [Bool.or_assoc]

theorem foldl_apply_token_density (opts : List String) :
    ∀ e : VectorEngine, (opts.foldl apply_token e).show_snapshots_density
      = (e.show_snapshots_density || opts.any (fun o =>
          decide (normalize_token o = "densitymatrix"))) := by
  induction opts with
  | nil => intro e; simp
  | cons o opts ih =>
    intro e
    rw [List.foldl_cons, ih, apply_token_density]
    simp [Bool.or_assoc]

theorem foldl_apply_token_probs (opts : List String) :
    ∀ e : VectorEngine, (opts.foldl apply_token e).show_snapshots_probs
      = (e.show_snapshots_probs || opts.any (fun o =>
          decide (normalize_token o = "probabilities" ∨ normalize_token o = "probs"))) := by
  induction opts with
  | nil => intro e; simp
  | cons o opts ih =>
    intro e
    rw [List.foldl_cons, ih, apply_token_probs]
    simp [Bool.or_assoc]

theorem foldl_apply_token_probs_ket (opts : List String) :
    ∀ e : VectorEngine, (opts.foldl apply_token e).show_snapshots_probs_ket
      = (e.show_snapshots_probs_ket || opts.any (fun o =>
          decide (normalize_token o = "probabilitiesket" ∨
            normalize_token o = "probsket"))) := by
  induction opts with
  | nil => intro e; simp
  | cons o opts ih =>
    intro e
    rw [List.foldl_cons, ih, apply_token_probs_ket]
    simp [Bool.or_assoc]

theorem foldl_apply_token_inner (opts : List String) :
    ∀ e : VectorEngine, (opts.foldl apply_token e).show_snapshots_inner_product
      = (e.show_snapshots_inner_product || opts.any (fun o =>
          decide (normalize_token o = "targetstatesinner"))) := by
  induction opts with
  | nil => intro e; simp
  | cons o opts ih =>
    intro e
    rw [List.foldl_cons, ih, apply_token_inner]
    simp [Bool.or_assoc]

theorem foldl_apply_token_overlaps (opts : List String) :
    ∀ e : VectorEngine, (opts.foldl apply_token e).show_snapshots_overlaps
      = (e.show_snapshots_overlaps || opts.any (fun o =>
          decide (normalize_token o = "targetstatesprobs"))) := by
  induction opts with
  | nil => intro e; simp
  | cons o opts ih =>
    intro e
    rw [List.foldl_cons, ih, apply_token_overlaps]
    simp [Bool.or_assoc]

theorem foldl_apply_token_frame (opts : List String) :
    ∀ e : VectorEngine, (opts.foldl apply_token e).qudit_dim = e.qudit_dim ∧
      (opts.foldl apply_token e).epsilon = e.epsilon ∧
      (opts.foldl apply_token e).target_states = e.target_states ∧
      (opts.foldl apply_token e).snapshots_ket = e.snapshots_ket ∧
      (opts.foldl apply_token e).snapshots_density = e.snapshots_density ∧
      (opts.foldl apply_token e).snapshots_probs = e.snapshots_probs ∧
      (opts.foldl apply_token e).snapshots_probs_ket = e.snapshots_probs_ket ∧
      (opts.foldl apply_token e).snapshots_inprods = e.snapshots_inprods ∧
      (opts.foldl apply_token e).snapshots_overlaps = e.snapshots_overlaps := by
  induction opts with
  | nil => intro e; exact ⟨rfl, rfl, rfl, rfl, rfl, rfl, rfl, rfl, rfl⟩
  | cons o opts ih =>
    intro e
    obtain ⟨i1, i2, i3, i4, i5, i6, i7, i8, i9⟩ := ih (apply_token e o)
    obtain ⟨a1, a2, a3, a4, a5, a6, a7, a8, a9, a10⟩ := apply_token_frame e o
    exact ⟨i1.trans a1, i2.trans a2, i3.trans a3, i4.trans a4, i5.trans a5,
      i6.trans a6, i7.trans a7, i8.trans a8, i9.trans a9⟩

/-- C9: Permissive token parsing.  Each configuration token is case-folded
and whitespace-trimmed; a selector ends up set exactly when some token
normalizes to one of its recognized spellings (quantumstateket and
quantumstatesket for kets, densitymatrix for densities, probabilities and
probs for probabilities, probabilitiesket and probsket for probability
kets, targetstatesinner for inner products, targetstatesprobs for
overlaps); unrecognized tokens are ignored without error and no other
engine setting is affected by the token list. -/
theorem C9_permissive_token_parsing (opts : List String) :
    ((from_json_data opts).show_snapshots_ket = true ↔
      ∃ o ∈ opts, normalize_token o = "quantumstateket" ∨
        normalize_token o = "quantumstatesket") ∧
    ((from_json_data opts).show_snapshots_density = true ↔
      ∃ o ∈ opts, normalize_token o = "densitymatrix") ∧
    ((from_json_data opts).show_snapshots_probs = true ↔
      ∃ o ∈ opts, normalize_token o = "probabilities" ∨ normalize_token o = "probs") ∧
    ((from_json_data opts).show_snapshots_probs_ket = true ↔
      ∃ o ∈ opts, normalize_token o = "probabilitiesket" ∨
        normalize_token o = "probsket") ∧
    ((from_json_data opts).show_snapshots_inner_product = true ↔
      ∃ o ∈ opts, normalize_token o = "targetstatesinner") ∧
    ((from_json_data opts).show_snapshots_overlaps = true ↔
      ∃ o ∈ opts, normalize_token o = "targetstatesprobs") ∧
    (from_json_data opts).qudit_dim = 2 ∧
    (from_json_data opts).epsilon = 1 / 10 ^ 10 ∧
    (from_json_data opts).target_states = [] ∧
    (from_json_data opts).snapshots_ket = [] ∧
    (from_json_data opts).snapshots_density = [] ∧
    (from_json_data opts).snapshots_probs = [] ∧
    (from_json_data opts).snapshots_probs_ket = [] ∧
    (from_json_data opts).snapshots_inprods = [] ∧
    (from_json_data opts).snapshots_overlaps = [] := by
  have hdef : from_json_data opts = opts.foldl apply_token {} := rfl
  obtain ⟨g1, g2, g3, g4, g5, g6, g7, g8, g9⟩ := foldl_apply_token_frame opts {}
  refine ⟨?_, ?_, ?_, ?_, ?_, ?_, ?_, ?_, ?_, ?_, ?_, ?_, ?_, ?_, ?_⟩
  · rw [hdef, foldl_apply_token_ket opts {}]
    simp [List.any_eq_true]
  · rw [hdef, foldl_apply_token_density opts {}]
    simp [List.any_eq_true]
  · rw [hdef, foldl_apply_token_probs opts {}]
    simp [List.any_eq_true]
  · rw [hdef, foldl_apply_token_probs_ket opts {}]
    simp [List.any_eq_true]
  · rw [hdef, foldl_apply_token_inner opts {}]
    simp [List.any_eq_true]
  · rw [hdef, foldl_apply_token_overlaps opts {}]
    simp [List.any_eq_true]
  · rw [hdef]; exact g1
  · rw [hdef]; exact g2
  · rw [hdef]; exact g3
  · rw [hdef]; exact g4
  · rw [hdef]; exact g5
  · rw [hdef]; exact g6
  · rw [hdef]; exact g7
  · rw [hdef]; exact g8
  · rw [hdef]; exact g9
